import Mathlib

/-!
# bakeit: the upload command (`cmd/root.go`)

A shallow embedding of the single command of the repository: the `Run`
handler of `rootCmd`, `readApiKey`, `apiKeyPath`, `readFromStdin`,
`handleUpload` and `Execute`, together with the parts of the Go standard
library that decide what they do (`url.Values`, `url.QueryEscape`,
`fmt.Sprint` on an `int`, `json.Unmarshal` into `ResponseData`).

Go strings and byte slices are byte sequences, so both are lists of bytes.
Everything the program does to the outside world is recorded as a list of
events, in program order.
-/

namespace Bakeit

/-! ## Bytes and Go strings -/

/-- A byte. -/
abbrev Byte := Fin 256

/-- A Go `string` or `[]byte`: a sequence of bytes. -/
abbrev Bytes := List Byte

/-- The function `utf8.AppendRune`: the UTF-8 encoding of a rune; surrogates
and values above `0x10FFFF` are written as `U+FFFD`. -/
def encodeRune (r : Nat) : Bytes :=
  if r ≤ 0x7F then [Fin.ofNat r]
  else if r ≤ 0x7FF then [Fin.ofNat (0xC0 + r / 64), Fin.ofNat (0x80 + r % 64)]
  else if r > 0x10FFFF ∨ (0xD800 ≤ r ∧ r ≤ 0xDFFF) then [0xEF, 0xBF, 0xBD]
  else if r ≤ 0xFFFF then
    [Fin.ofNat (0xE0 + r / 4096), Fin.ofNat (0x80 + r / 64 % 64), Fin.ofNat (0x80 + r % 64)]
  else
    [Fin.ofNat (0xF0 + r / 262144), Fin.ofNat (0x80 + r / 4096 % 64),
      Fin.ofNat (0x80 + r / 64 % 64), Fin.ofNat (0x80 + r % 64)]

/-- The bytes of a sequence of Unicode characters (its UTF-8 encoding). -/
def utf8 (cs : List Char) : Bytes :=
  cs.flatMap (fun c => encodeRune c.toNat)

/-- The bytes of a Go string literal. -/
def lit (s : String) : Bytes :=
  utf8 s.toList

/-! ## `fmt.Sprint` on an `int` -/

/-- The decimal digits of `n`, most significant first, in front of `acc`;
`fuel` bounds the number of digits. -/
def formatDigits : Nat → Nat → Bytes → Bytes
  | 0, _, acc => acc
  | fuel + 1, n, acc =>
    let acc1 : Bytes := Fin.ofNat (48 + n % 10) :: acc
    if n / 10 = 0 then acc1 else formatDigits fuel (n / 10) acc1

/-- The decimal rendering of a natural number. -/
def formatNat (n : Nat) : Bytes :=
  formatDigits (n + 1) n []

/-- The call `fmt.Sprint(i)` for an `int`: decimal digits, with a leading
`-` for a negative value. -/
def Sprint : Int → Bytes
  | Int.ofNat n => formatNat n
  | Int.negSucc n => 45 :: formatNat (n + 1)

/-! ## `net/url`: escaping and `url.Values` -/

/-- The function `shouldEscape(c, encodeQueryComponent)`: every byte except
the ASCII letters, the digits and `-`, `_`, `.`, `~` is escaped. -/
def shouldEscape (c : Byte) : Bool :=
  if (97 ≤ c.val ∧ c.val ≤ 122) ∨ (65 ≤ c.val ∧ c.val ≤ 90) ∨ (48 ≤ c.val ∧ c.val ≤ 57) then false
  else if c = 45 ∨ c = 95 ∨ c = 46 ∨ c = 126 then false
  else true

/-- The table `upperhex` at index `n`. -/
def upperhex (n : Nat) : Byte :=
  if n < 10 then Fin.ofNat (48 + n) else Fin.ofNat (55 + n)

/-- What `escape` writes for one byte in mode `encodeQueryComponent`. -/
def escapeByte (c : Byte) : Bytes :=
  if c = 32 then [43]
  else if shouldEscape c then [37, upperhex (c.val / 16), upperhex (c.val % 16)]
  else [c]

/-- The function `url.QueryEscape`. -/
def QueryEscape (s : Bytes) : Bytes :=
  s.flatMap escapeByte

/-- The function `ishex`. -/
def ishex (c : Byte) : Bool :=
  (48 ≤ c.val ∧ c.val ≤ 57) ∨ (97 ≤ c.val ∧ c.val ≤ 102) ∨ (65 ≤ c.val ∧ c.val ≤ 70)

/-- The function `unhex`. -/
def unhex (c : Byte) : Nat :=
  if 48 ≤ c.val ∧ c.val ≤ 57 then c.val - 48
  else if 97 ≤ c.val ∧ c.val ≤ 102 then c.val - 97 + 10
  else if 65 ≤ c.val ∧ c.val ≤ 70 then c.val - 65 + 10
  else 0

/-- The function `url.QueryUnescape`: `%XX` becomes the byte, `+` a space;
`none` is the `EscapeError` for a `%` not followed by two hex digits. -/
def QueryUnescape : Bytes → Option Bytes
  | [] => some []
  | c :: rest =>
    if c = 37 then
      match rest with
      | h1 :: h2 :: rest2 =>
        if ishex h1 ∧ ishex h2 then
          (QueryUnescape rest2).map (fun t => Fin.ofNat (unhex h1 * 16 + unhex h2) :: t)
        else none
      | _ => none
    else if c = 43 then (QueryUnescape rest).map (fun t => (32 : Byte) :: t)
    else (QueryUnescape rest).map (fun t => c :: t)

/-- The bytes `QueryEscape` can write: the unreserved ones, `%` and `+`. -/
def queryByte (b : Byte) : Bool :=
  !shouldEscape b || b == 37 || b == 43

/-- Go's string order: bytewise lexicographic, `a < b`. -/
def bytesLt : Bytes → Bytes → Bool
  | _, [] => false
  | [], _ :: _ => true
  | a :: as, b :: bs => if a.val < b.val then true else if b.val < a.val then false else bytesLt as bs

/-- The type `url.Values`, a `map[string][]string`: each key appears once. -/
abbrev Values := List (Bytes × List Bytes)

/-- The method `Values.Set`: the key now holds exactly the one value. -/
def Values.Set : Values → Bytes → Bytes → Values
  | [], k, v => [(k, [v])]
  | (k1, vs) :: rest, k, v =>
    if k1 = k then (k1, [v]) :: rest else (k1, vs) :: Values.Set rest k v

/-- The method `Values.Add`: the value is appended to those of the key. -/
def Values.Add : Values → Bytes → Bytes → Values
  | [], k, v => [(k, [v])]
  | (k1, vs) :: rest, k, v =>
    if k1 = k then (k1, vs ++ [v]) :: rest else (k1, vs) :: Values.Add rest k v

/-- Insert an entry into a list of entries sorted by key. -/
def insertSorted (e : Bytes × List Bytes) : Values → Values
  | [] => [e]
  | e1 :: rest => if bytesLt e1.1 e.1 then e1 :: insertSorted e rest else e :: e1 :: rest

/-- The entries in ascending key order (`slices.Sort(keys)`). -/
def sortByKey : Values → Values
  | [] => []
  | e :: rest => insertSorted e (sortByKey rest)

/-- The inner loop of `Values.Encode`: append `key=value` for each value of
one key, with `&` in front when the buffer is non-empty. -/
def encodeKey (keyEscaped : Bytes) : Bytes → List Bytes → Bytes
  | buf, [] => buf
  | buf, v :: vs =>
    encodeKey keyEscaped
      ((if buf.length > 0 then buf ++ [38] else buf) ++ keyEscaped ++ [61] ++ QueryEscape v) vs

/-- The outer loop of `Values.Encode` over the sorted keys. -/
def encodeEntries : Bytes → Values → Bytes
  | buf, [] => buf
  | buf, (k, vs) :: rest => encodeEntries (encodeKey (QueryEscape k) buf vs) rest

/-- The method `Values.Encode`. -/
def Values.Encode (v : Values) : Bytes :=
  encodeEntries [] (sortByKey v)

/-- The query parameters `handleUpload` sets (lines 89 to 94). -/
def uploadParams (apiKey title lang : Bytes) (duration maxViews : Int) : Values :=
  let params : Values := []
  let params := params.Set (lit "api_key") apiKey
  let params := params.Add (lit "title") title
  let params := params.Add (lit "language") lang
  let params := params.Add (lit "duration") (Sprint duration)
  let params := params.Add (lit "max_views") (Sprint maxViews)
  params

/-- The query string `handleUpload` sends (line 96). -/
def queryString (apiKey title lang : Bytes) (duration maxViews : Int) : Bytes :=
  (uploadParams apiKey title lang duration maxViews).Encode

/-! ## Splitting a query string -/

/-- The function `strings.Split` for a one-byte separator. -/
def splitOn (sep : Byte) : Bytes → List Bytes
  | [] => [[]]
  | c :: rest =>
    if c = sep then [] :: splitOn sep rest
    else
      match splitOn sep rest with
      | [] => [[c]]
      | p :: ps => (c :: p) :: ps

/-- One `key=value` part of a query string, both sides decoded. -/
def decodePair (part : Bytes) : Option (Bytes × Bytes) :=
  match splitOn 61 part with
  | [k, v] =>
    match QueryUnescape k, QueryUnescape v with
    | some k1, some v1 => some (k1, v1)
    | _, _ => none
  | _ => none

/-- The parts of a query string, each split on `=` and decoded. -/
def decodeParts : List Bytes → Option (List (Bytes × Bytes))
  | [] => some []
  | part :: parts =>
    match decodePair part, decodeParts parts with
    | some kv, some rest => some (kv :: rest)
    | _, _ => none

/-- A query string split on `&`, each part split on `=` and decoded. -/
def decodeQuery (q : Bytes) : Option (List (Bytes × Bytes)) :=
  decodeParts (splitOn 38 q)


/-! ## Reading a decimal rendering back -/

/-- The number a run of decimal digits stands for. -/
def digitsValue (ds : Bytes) : Nat :=
  ds.foldl (fun acc b => acc * 10 + (b.val - 48)) 0

/-- The integer a decimal rendering stands for: an optional `-`, then
digits. -/
def decimalValue : Bytes → Int
  | [] => 0
  | c :: rest => if c = 45 then -(digitsValue rest : Int) else (digitsValue (c :: rest) : Int)

/-- Whether the bytes are a decimal rendering: an optional `-`, then one
or more digits and nothing else. -/
def isDecimal : Bytes → Bool
  | [] => false
  | c :: rest =>
    if c = 45 then !rest.isEmpty && rest.all (fun b => 48 ≤ b.val && b.val ≤ 57)
    else (c :: rest).all (fun b => 48 ≤ b.val && b.val ≤ 57)
/-! ## `unicode/utf8` and `unicode/utf16` -/

/-- The rune `utf8.RuneError`, `U+FFFD`. -/
def RuneError : Nat := 0xFFFD

/-- The function `utf8.DecodeRune`: the first rune of `p` and its width in
bytes; `(RuneError, 1)` for a malformed or truncated encoding and
`(RuneError, 0)` for empty input. The table `first` and the `acceptRanges` are
written as the byte ranges they hold. -/
def DecodeRune (p : Bytes) : Nat × Nat :=
  match p with
  | [] => (RuneError, 0)
  | p0 :: rest =>
    if p0.val < 0x80 then (p0.val, 1)
    else if p0.val < 0xC2 ∨ 0xF4 < p0.val then (RuneError, 1)
    else
      let sz := if p0.val < 0xE0 then 2 else if p0.val < 0xF0 then 3 else 4
      let lo := if p0.val = 0xE0 then 0xA0 else if p0.val = 0xF0 then 0x90 else 0x80
      let hi := if p0.val = 0xED then 0x9F else if p0.val = 0xF4 then 0x8F else 0xBF
      if rest.length + 1 < sz then (RuneError, 1)
      else
        match rest with
        | [] => (RuneError, 1)
        | b1 :: rest1 =>
          if b1.val < lo ∨ hi < b1.val then (RuneError, 1)
          else if sz ≤ 2 then (p0.val % 32 * 64 + b1.val % 64, 2)
          else
            match rest1 with
            | [] => (RuneError, 1)
            | b2 :: rest2 =>
              if b2.val < 0x80 ∨ 0xBF < b2.val then (RuneError, 1)
              else if sz ≤ 3 then (p0.val % 16 * 4096 + b1.val % 64 * 64 + b2.val % 64, 3)
              else
                match rest2 with
                | [] => (RuneError, 1)
                | b3 :: _ =>
                  if b3.val < 0x80 ∨ 0xBF < b3.val then (RuneError, 1)
                  else
                    (p0.val % 8 * 262144 + b1.val % 64 * 4096 + b2.val % 64 * 64 + b3.val % 64, 4)

/-- The function `utf16.IsSurrogate`. -/
def IsSurrogate (r : Nat) : Bool :=
  0xD800 ≤ r ∧ r < 0xE000

/-- The function `utf16.DecodeRune`: the rune of a surrogate pair, `U+FFFD`
when the pair is not a high surrogate followed by a low one. -/
def utf16DecodeRune (r1 r2 : Nat) : Nat :=
  if 0xD800 ≤ r1 ∧ r1 < 0xDC00 ∧ 0xDC00 ≤ r2 ∧ r2 < 0xE000 then
    (r1 - 0xD800) * 1024 + (r2 - 0xDC00) + 0x10000
  else RuneError

/-! ## `encoding/json`: the scanner -/

/-- The values `parseObjectKey`, `parseObjectValue`, `parseArrayValue` of the
scanner's parse-state stack. -/
inductive ParseState
  | objectKey
  | objectValue
  | arrayValue
  deriving DecidableEq, Repr

/-- The step functions of the scanner (`stateBeginValue`, `stateInString`,
...), one constructor for each; `error` is `stateError`. -/
inductive Step
  | beginValueOrEmpty
  | beginValue
  | beginStringOrEmpty
  | beginString
  | endValue
  | endTop
  | inString
  | inStringEsc
  | inStringEscU
  | inStringEscU1
  | inStringEscU12
  | inStringEscU123
  | neg
  | s1
  | s0
  | dot
  | dot0
  | e
  | eSign
  | e0
  | t
  | tr
  | tru
  | f
  | fa
  | fal
  | fals
  | n
  | nu
  | nul
  | error
  deriving DecidableEq, Repr

/-- The type `scanner`: the current step function, the `endTop` flag and the
parse-state stack (innermost first). An error is the step `error`. -/
structure Scanner where
  step : Step
  endTop : Bool
  parseState : List ParseState
  deriving DecidableEq, Repr

/-- The constant `maxNestingDepth`. -/
def maxNestingDepth : Nat := 10000

/-- The function `isSpace` of the scanner. -/
def isSpace (c : Byte) : Bool :=
  c = 32 ∨ c = 9 ∨ c = 13 ∨ c = 10

/-- A decimal digit. -/
def isDigit (c : Byte) : Bool :=
  48 ≤ c.val ∧ c.val ≤ 57

/-- The method `scanner.error`. -/
def Scanner.fail (s : Scanner) : Scanner :=
  { s with step := Step.error }

/-- The method `scanner.reset`. -/
def Scanner.reset : Scanner :=
  { step := Step.beginValue, endTop := false, parseState := [] }

/-- The method `scanner.pushParseState`, after the step was set to `next`. -/
def Scanner.pushParseState (s : Scanner) (next : Step) (p : ParseState) : Scanner :=
  if s.parseState.length + 1 ≤ maxNestingDepth then
    { s with step := next, parseState := p :: s.parseState }
  else
    { s with step := Step.error, parseState := p :: s.parseState }

/-- The method `scanner.popParseState`. -/
def Scanner.popParseState (s : Scanner) : Scanner :=
  match s.parseState.tail with
  | [] => { s with step := Step.endTop, endTop := true, parseState := [] }
  | ps => { s with step := Step.endValue, parseState := ps }

/-- The function `stateEndTop`. -/
def stateEndTop (s : Scanner) (c : Byte) : Scanner :=
  if isSpace c then s else s.fail

/-- The function `stateEndValue`. -/
def stateEndValue (s : Scanner) (c : Byte) : Scanner :=
  match s.parseState with
  | [] => stateEndTop { s with step := Step.endTop, endTop := true } c
  | ps :: below =>
    if isSpace c then { s with step := Step.endValue }
    else
      match ps with
      | ParseState.objectKey =>
        if c = 58 then
          { s with step := Step.beginValue, parseState := ParseState.objectValue :: below }
        else s.fail
      | ParseState.objectValue =>
        if c = 44 then
          { s with step := Step.beginString, parseState := ParseState.objectKey :: below }
        else if c = 125 then s.popParseState
        else s.fail
      | ParseState.arrayValue =>
        if c = 44 then { s with step := Step.beginValue }
        else if c = 93 then s.popParseState
        else s.fail

/-- The function `stateBeginValue`. -/
def stateBeginValue (s : Scanner) (c : Byte) : Scanner :=
  if isSpace c then s
  else if c = 123 then s.pushParseState Step.beginStringOrEmpty ParseState.objectKey
  else if c = 91 then s.pushParseState Step.beginValueOrEmpty ParseState.arrayValue
  else if c = 34 then { s with step := Step.inString }
  else if c = 45 then { s with step := Step.neg }
  else if c = 48 then { s with step := Step.s0 }
  else if c = 116 then { s with step := Step.t }
  else if c = 102 then { s with step := Step.f }
  else if c = 110 then { s with step := Step.n }
  else if 49 ≤ c.val ∧ c.val ≤ 57 then { s with step := Step.s1 }
  else s.fail

/-- The function `stateBeginValueOrEmpty`. -/
def stateBeginValueOrEmpty (s : Scanner) (c : Byte) : Scanner :=
  if isSpace c then s
  else if c = 93 then stateEndValue s c
  else stateBeginValue s c

/-- The function `stateBeginString`. -/
def stateBeginString (s : Scanner) (c : Byte) : Scanner :=
  if isSpace c then s
  else if c = 34 then { s with step := Step.inString }
  else s.fail

/-- The function `stateBeginStringOrEmpty`. -/
def stateBeginStringOrEmpty (s : Scanner) (c : Byte) : Scanner :=
  if isSpace c then s
  else if c = 125 then
    stateEndValue { s with parseState := ParseState.objectValue :: s.parseState.tail } c
  else stateBeginString s c

/-- The function `stateInString`. -/
def stateInString (s : Scanner) (c : Byte) : Scanner :=
  if c = 34 then { s with step := Step.endValue }
  else if c = 92 then { s with step := Step.inStringEsc }
  else if c.val < 32 then s.fail
  else s

/-- The function `stateInStringEsc`. -/
def stateInStringEsc (s : Scanner) (c : Byte) : Scanner :=
  if c = 98 ∨ c = 102 ∨ c = 110 ∨ c = 114 ∨ c = 116 ∨ c = 92 ∨ c = 47 ∨ c = 34 then
    { s with step := Step.inString }
  else if c = 117 then { s with step := Step.inStringEscU }
  else s.fail

/-- The functions `stateInStringEscU`, `...U1`, `...U12`, `...U123`: one hex
digit each, then on to `next`. -/
def stateHex (next : Step) (s : Scanner) (c : Byte) : Scanner :=
  if ishex c then { s with step := next } else s.fail

/-- The function `state0`. -/
def state0 (s : Scanner) (c : Byte) : Scanner :=
  if c = 46 then { s with step := Step.dot }
  else if c = 101 ∨ c = 69 then { s with step := Step.e }
  else stateEndValue s c

/-- The function `state1`. -/
def state1 (s : Scanner) (c : Byte) : Scanner :=
  if isDigit c then { s with step := Step.s1 } else state0 s c

/-- The function `stateNeg`. -/
def stateNeg (s : Scanner) (c : Byte) : Scanner :=
  if c = 48 then { s with step := Step.s0 }
  else if 49 ≤ c.val ∧ c.val ≤ 57 then { s with step := Step.s1 }
  else s.fail

/-- The function `stateDot`. -/
def stateDot (s : Scanner) (c : Byte) : Scanner :=
  if isDigit c then { s with step := Step.dot0 } else s.fail

/-- The function `stateDot0`. -/
def stateDot0 (s : Scanner) (c : Byte) : Scanner :=
  if isDigit c then s
  else if c = 101 ∨ c = 69 then { s with step := Step.e }
  else stateEndValue s c

/-- The function `stateESign`. -/
def stateESign (s : Scanner) (c : Byte) : Scanner :=
  if isDigit c then { s with step := Step.e0 } else s.fail

/-- The function `stateE`. -/
def stateE (s : Scanner) (c : Byte) : Scanner :=
  if c = 43 ∨ c = 45 then { s with step := Step.eSign } else stateESign s c

/-- The function `stateE0`. -/
def stateE0 (s : Scanner) (c : Byte) : Scanner :=
  if isDigit c then s else stateEndValue s c

/-- The steps inside `true`, `false` and `null` (`stateT`, `stateTr`, ...):
the byte `want`, then on to `next`. -/
def stateLit (want : Byte) (next : Step) (s : Scanner) (c : Byte) : Scanner :=
  if c = want then { s with step := next } else s.fail

/-- One call `s.step(s, c)`. -/
def Scanner.next (s : Scanner) (c : Byte) : Scanner :=
  match s.step with
  | Step.beginValueOrEmpty => stateBeginValueOrEmpty s c
  | Step.beginValue => stateBeginValue s c
  | Step.beginStringOrEmpty => stateBeginStringOrEmpty s c
  | Step.beginString => stateBeginString s c
  | Step.endValue => stateEndValue s c
  | Step.endTop => stateEndTop s c
  | Step.inString => stateInString s c
  | Step.inStringEsc => stateInStringEsc s c
  | Step.inStringEscU => stateHex Step.inStringEscU1 s c
  | Step.inStringEscU1 => stateHex Step.inStringEscU12 s c
  | Step.inStringEscU12 => stateHex Step.inStringEscU123 s c
  | Step.inStringEscU123 => stateHex Step.inString s c
  | Step.neg => stateNeg s c
  | Step.s1 => state1 s c
  | Step.s0 => state0 s c
  | Step.dot => stateDot s c
  | Step.dot0 => stateDot0 s c
  | Step.e => stateE s c
  | Step.eSign => stateESign s c
  | Step.e0 => stateE0 s c
  | Step.t => stateLit 114 Step.tr s c
  | Step.tr => stateLit 117 Step.tru s c
  | Step.tru => stateLit 101 Step.endValue s c
  | Step.f => stateLit 97 Step.fa s c
  | Step.fa => stateLit 108 Step.fal s c
  | Step.fal => stateLit 115 Step.fals s c
  | Step.fals => stateLit 101 Step.endValue s c
  | Step.n => stateLit 117 Step.nu s c
  | Step.nu => stateLit 108 Step.nul s c
  | Step.nul => stateLit 108 Step.endValue s c
  | Step.error => s

/-- The scanner after the bytes of `data`. -/
def Scanner.run (s : Scanner) (data : Bytes) : Scanner :=
  data.foldl Scanner.next s

/-- The method `scanner.eof`: whether the input so far is a complete JSON
value. -/
def Scanner.eof (s : Scanner) : Bool :=
  if s.step = Step.error then false
  else if s.endTop then true
  else
    (s.next 32).endTop

/-- The function `checkValid`: whether `data` is one JSON value, with only
white space around it. -/
def checkValid (data : Bytes) : Bool :=
  (Scanner.reset.run data).eof
/-! ## `encoding/json`: decoding into `ResponseData`

The decoder runs only on input `checkValid` has accepted. -/

/-- The function `getu4`: the value of the four hex digits of a `\uXXXX`
escape at the head of the input, with the input after it. -/
def getu4 : Bytes → Option (Nat × Bytes)
  | b :: u :: h1 :: h2 :: h3 :: h4 :: rest =>
    if b = 92 ∧ u = 117 ∧ ishex h1 ∧ ishex h2 ∧ ishex h3 ∧ ishex h4 then
      some (((unhex h1 * 16 + unhex h2) * 16 + unhex h3) * 16 + unhex h4, rest)
    else none
  | _ => none

/-- The byte a one-letter escape stands for in `unquoteBytes`. -/
def unescapeLetter (c : Byte) : Option Byte :=
  if c = 34 ∨ c = 92 ∨ c = 47 ∨ c = 39 then some c
  else if c = 98 then some 8
  else if c = 102 then some 12
  else if c = 110 then some 10
  else if c = 114 then some 13
  else if c = 116 then some 9
  else none

/-- The function `unquoteBytes`, on the input after the opening quote: the
decoded string up to the closing quote and the input after that quote.
Escapes are replaced, a lone surrogate escape and malformed UTF-8 become
`U+FFFD`. `none` is `ok == false`. Each round consumes input, so `fuel`
above the length of the input is enough. -/
def unquoteLoop : Nat → Bytes → Option (Bytes × Bytes)
  | 0, _ => none
  | _ + 1, [] => none
  | fuel + 1, c :: rest =>
    if c = 34 then some ([], rest)
    else if c = 92 then
      match rest with
      | [] => none
      | x :: rest1 =>
        if x = 117 then
          match getu4 (c :: rest) with
          | none => none
          | some (rr, rest2) =>
            if IsSurrogate rr then
              match getu4 rest2 with
              | some (rr1, rest3) =>
                if utf16DecodeRune rr rr1 ≠ RuneError then
                  (unquoteLoop fuel rest3).map
                    (fun r => (encodeRune (utf16DecodeRune rr rr1) ++ r.1, r.2))
                else (unquoteLoop fuel rest2).map (fun r => (encodeRune RuneError ++ r.1, r.2))
              | none => (unquoteLoop fuel rest2).map (fun r => (encodeRune RuneError ++ r.1, r.2))
            else (unquoteLoop fuel rest2).map (fun r => (encodeRune rr ++ r.1, r.2))
        else
          match unescapeLetter x with
          | none => none
          | some b => (unquoteLoop fuel rest1).map (fun r => (b :: r.1, r.2))
    else if c.val < 32 then none
    else if c.val < 128 then (unquoteLoop fuel rest).map (fun r => (c :: r.1, r.2))
    else
      let d := DecodeRune (c :: rest)
      (unquoteLoop fuel ((c :: rest).drop d.2)).map (fun r => (encodeRune d.1 ++ r.1, r.2))

/-- The function `unquoteBytes` on the input after an opening quote. -/
def unquote (data : Bytes) : Option (Bytes × Bytes) :=
  unquoteLoop (data.length + 1) data

/-- Where the scan of a nested value stands: outside a string, inside one,
or right after a backslash inside one. -/
inductive SkipMode
  | out
  | str
  | esc
  deriving DecidableEq, Repr

/-- The input after the end of the string, array or object that is open:
`depth` counts the open brackets. -/
def skipNested : Nat → SkipMode → Bytes → Bytes
  | _, _, [] => []
  | depth, SkipMode.esc, _ :: rest => skipNested depth SkipMode.str rest
  | depth, SkipMode.str, c :: rest =>
    if c = 34 then (if depth = 0 then rest else skipNested depth SkipMode.out rest)
    else if c = 92 then skipNested depth SkipMode.esc rest
    else skipNested depth SkipMode.str rest
  | depth, SkipMode.out, c :: rest =>
    if c = 34 then skipNested depth SkipMode.str rest
    else if c = 123 ∨ c = 91 then skipNested (depth + 1) SkipMode.out rest
    else if c = 125 ∨ c = 93 then
      (if depth ≤ 1 then rest else skipNested (depth - 1) SkipMode.out rest)
    else skipNested depth SkipMode.out rest

/-- The input from the first byte that ends a number or a literal name. -/
def skipScalar : Bytes → Bytes
  | [] => []
  | c :: rest =>
    if isSpace c ∨ c = 44 ∨ c = 125 ∨ c = 93 then c :: rest else skipScalar rest

/-- The input after the JSON value that starts at its head
(`decodeState.skip`, `decodeState.rescanLiteral`). -/
def skipValue : Bytes → Bytes
  | [] => []
  | c :: rest =>
    if c = 34 then skipNested 0 SkipMode.str rest
    else if c = 123 ∨ c = 91 then skipNested 1 SkipMode.out rest
    else skipScalar (c :: rest)

/-- The input without its leading white space (`scanWhile(scanSkipSpace)`). -/
def skipSpace : Bytes → Bytes
  | [] => []
  | c :: rest => if isSpace c then skipSpace rest else c :: rest

/-- The type `ResponseData`: the one field `URL`, with tag `json:"url"`. -/
structure ResponseData where
  URL : Bytes
  deriving DecidableEq, Repr

/-- The errors of `json.Unmarshal`: a `*SyntaxError`, an
`*UnmarshalTypeError` with its `Value`, and the panic of a decoder that
lost track of its input. -/
inductive JsonError
  | malformed
  | unmarshalType (value : String)
  | phase
  deriving DecidableEq, Repr

/-- ASCII upper case of a byte. -/
def asciiUpper (c : Byte) : Byte :=
  if 97 ≤ c.val ∧ c.val ≤ 122 then Fin.ofNat (c.val - 32) else c

/-- Whether an object key names the field `url`: exactly, or up to case
(`byExactName`, `byFoldedName`). No rune outside ASCII folds to `U`, `R` or
`L`, so the fold is the ASCII one. -/
def matchesURL (key : Bytes) : Bool :=
  key = lit "url" ∨ key.map asciiUpper = lit "URL"

/-- The name `UnmarshalTypeError.Value` gives to the JSON value that starts
with byte `c`. -/
def valueKind (c : Byte) : String :=
  if c = 91 then "array"
  else if c = 123 then "object"
  else if c = 34 then "string"
  else if c = 116 ∨ c = 102 then "bool"
  else "number"

/-- The method `decodeState.saveError`: the first error is kept. -/
def saveError (saved : Option JsonError) (e : JsonError) : Option JsonError :=
  match saved with
  | none => some e
  | some e0 => some e0

/-- Decoding the value at the head of `item` into the string field `URL`
(`decodeState.value` on the field, `literalStore`): a string is stored,
`null` leaves the field alone, anything else is a saved
`UnmarshalTypeError`. `none` is the decoder's panic. -/
def storeURL (item : Bytes) (v : ResponseData) (saved : Option JsonError) :
    Option (ResponseData × Option JsonError) :=
  match item with
  | [] => none
  | c :: rest =>
    if c = 34 then
      match unquote rest with
      | none => none
      | some (s, _) => some ({ v with URL := s }, saved)
    else if c = 110 then some (v, saved)
    else some (v, saveError saved (JsonError.unmarshalType (valueKind c)))

/-- The loop of `decodeState.object` for a `ResponseData`, on the input
after `{` or after a `,`: each key is unquoted and matched against the
field, its value stored or skipped. `none` is the decoder's panic. Each
round consumes input, so `fuel` above the length of the input is enough. -/
def objectLoop : Nat → Bytes → ResponseData → Option JsonError →
    Option (ResponseData × Option JsonError)
  | 0, _, _, _ => none
  | fuel + 1, data, v, saved =>
    match skipSpace data with
    | [] => none
    | c :: rest =>
      if c = 125 then some (v, saved)
      else if c = 34 then
        match unquote rest with
        | none => none
        | some (key, rest1) =>
          match skipSpace rest1 with
          | [] => none
          | colon :: rest2 =>
            if colon = 58 then
              let item := skipSpace rest2
              match (if matchesURL key then storeURL item v saved else some (v, saved)) with
              | none => none
              | some (v1, saved1) =>
                match skipSpace (skipValue item) with
                | [] => none
                | d :: rest3 =>
                  if d = 125 then some (v1, saved1)
                  else if d = 44 then objectLoop fuel rest3 v1 saved1
                  else none
            else none
      else none

/-- The method `decodeState.value` on the top-level value, into a
`ResponseData`: an object is decoded field by field, `null` changes
nothing, every other value is an `UnmarshalTypeError`. -/
def decodeValue (data : Bytes) (v : ResponseData) : Option (ResponseData × Option JsonError) :=
  match skipSpace data with
  | [] => none
  | c :: rest =>
    if c = 123 then objectLoop (rest.length + 1) rest v none
    else if c = 110 then some (v, none)
    else some (v, some (JsonError.unmarshalType (valueKind c)))

/-- The call `json.Unmarshal(data, &v)` for a `ResponseData`: the value of
`v` afterwards, or the error returned. -/
def Unmarshal (data : Bytes) (v : ResponseData) : Except JsonError ResponseData :=
  if checkValid data then
    match decodeValue data v with
    | none => Except.error JsonError.phase
    | some (v1, none) => Except.ok v1
    | some (_, some e) => Except.error e
  else Except.error JsonError.malformed
/-! ## The outside world and what the program does to it -/

/-- A Go `error` value: one whose text is known (`errors.New`, the errors of
the operating system and of the transport, given with their text), an
error of `json.Unmarshal`, or the error of `url.Parse`. -/
inductive GoError
  | msg (text : Bytes)
  | json (e : JsonError)
  | url
  deriving DecidableEq, Repr

/-- The type `http.Request` as far as `handleUpload` fills it: method,
target URL, body and header fields. -/
structure Request where
  method : Bytes
  url : Bytes
  body : Bytes
  header : List (Bytes × Bytes)
  deriving DecidableEq, Repr

/-- The type `http.Response` as far as `handleUpload` uses it: what
`io.ReadAll(resp.Body)` returns. -/
structure Response where
  body : Except Bytes Bytes

/-- A loaded configuration file: the value
`Section(section).Key(key).String()`, empty when the section or the key is
absent. -/
abbrev IniFile := Bytes → Bytes → Bytes

/-- Everything outside the program that a run depends on. -/
structure World where
  /-- The call `os.UserHomeDir()`. -/
  homeDir : Except Bytes Bytes
  /-- The constant `os.PathSeparator`. -/
  pathSeparator : Byte
  /-- The call `ini.Load(path)`. -/
  iniLoad : Bytes → Except Bytes IniFile
  /-- The call `ioutil.ReadAll(os.Stdin)`. -/
  stdin : Except Bytes Bytes
  /-- The call `ioutil.ReadFile(path)`. -/
  readFile : Bytes → Except Bytes Bytes
  /-- The transport and the remote service behind `client.Do(req)`: the
  response, or the text of the cause of the failure. -/
  roundTrip : Request → Except Bytes Response
  /-- The text `err.Error()` of the library errors whose wording is not
  modelled. -/
  libraryErrorText : GoError → Bytes

/-- The method `err.Error()`. -/
def World.errorText (w : World) : GoError → Bytes
  | GoError.msg text => text
  | e => w.libraryErrorText e

/-- What a run does, in program order. -/
inductive Event
  /-- Bytes written to standard output. -/
  | stdout (text : Bytes)
  /-- Bytes written to standard error. -/
  | stderr (text : Bytes)
  /-- The HTTP request handed to `client.Do`. -/
  | send (req : Request)
  /-- The call `client.Do` returned a response, whose body is open. -/
  | response
  /-- The call `resp.Body.Close()`. -/
  | close
  /-- The process ends with this status. -/
  | exit (code : Nat)
  deriving DecidableEq, Repr

/-- What `fmt.Println` writes: the operands separated by spaces, then a
newline. -/
def Println : List Bytes → Bytes
  | [] => [10]
  | [a] => a ++ [10]
  | a :: b :: rest => a ++ 32 :: Println (b :: rest)

/-- The flag variables `title`, `lang`, `duration`, `maxViews`,
`openBrowser`, as set from the command line. -/
structure Flags where
  title : Bytes
  lang : Bytes
  duration : Int
  maxViews : Int
  openBrowser : Bool
  deriving DecidableEq, Repr

/-- The defaults of the flags (`init`). -/
def Flags.default : Flags :=
  { title := [], lang := [], duration := 60, maxViews := 0, openBrowser := false }

/-! ## `net/http` -/

/-- The function `stringContainsCTLByte`. -/
def stringContainsCTLByte (s : Bytes) : Bool :=
  s.any (fun b => b.val < 32 || b.val == 127)

/-- Whether every `%` is followed by two hex digits (the first pass of
`unescape`). -/
def validEscapes : Bytes → Bool
  | [] => true
  | c :: rest =>
    if c = 37 then
      match rest with
      | h1 :: h2 :: rest2 => ishex h1 && ishex h2 && validEscapes rest2
      | _ => false
    else validEscapes rest

/-- The part of a URL after the first `#`, if there is one. -/
def fragmentOf : Bytes → Option Bytes
  | [] => none
  | c :: rest => if c = 35 then some rest else fragmentOf rest

/-- The function `http.NewRequest`, for a valid method and a target that
starts with `https://www.pastery.net/api/paste/?`: `url.Parse` rejects such
a target only for a control byte or for a fragment with a malformed
escape. The new request has an empty header. -/
def NewRequest (method url body : Bytes) : Except GoError Request :=
  if stringContainsCTLByte url then Except.error GoError.url
  else
    match fragmentOf url with
    | some frag =>
      if validEscapes frag then
        Except.ok { method := method, url := url, body := body, header := [] }
      else Except.error GoError.url
    | none => Except.ok { method := method, url := url, body := body, header := [] }

/-- The method `Header.Set` for a key in canonical form: the key now holds
exactly this value. -/
def headerSet : List (Bytes × Bytes) → Bytes → Bytes → List (Bytes × Bytes)
  | [], k, v => [(k, v)]
  | (k1, v1) :: rest, k, v =>
    if k1 = k then (k1, v) :: rest else (k1, v1) :: headerSet rest k v

/-- The call `req.Header.Set(k, v)`. -/
def Request.setHeader (req : Request) (k v : Bytes) : Request :=
  { req with header := headerSet req.header k v }

/-! ## The program: `cmd/root.go` -/

/-- The function `apiKeyPath`: the path, and the error or `none` for `nil`. -/
def apiKeyPath (w : World) : Bytes × Option GoError :=
  match w.homeDir with
  | Except.error err => ([], some (GoError.msg err))
  | Except.ok homeDir =>
    let ps : Bytes := [w.pathSeparator]
    (homeDir ++ ps ++ lit ".config" ++ ps ++ lit "bakeit.cfg", none)

/-- The function `readApiKey`: the key, and the error or `none` for `nil`. -/
def readApiKey (w : World) (cfgPath : Bytes) : Bytes × Option GoError :=
  match w.iniLoad cfgPath with
  | Except.error err => ([], some (GoError.msg err))
  | Except.ok iniData =>
    let sec := iniData (lit "pastery")
    let apiKey := sec (lit "api_key")
    if apiKey = [] then ([], some (GoError.msg (lit "missing api_key")))
    else (apiKey, none)

/-- The function `readFromStdin`: what it prints, the input, and the error
or `none` for `nil`. -/
def readFromStdin (w : World) : List Event × Bytes × Option GoError :=
  match w.stdin with
  | Except.error err =>
    ([Event.stdout (Println [lit "Error reading input from stdin:", err])], [],
      some (GoError.msg err))
  | Except.ok input => ([], input, none)

/-- The fixed endpoint of `handleUpload`. -/
def endpoint : Bytes :=
  lit "https://www.pastery.net/api/paste/"

/-- The target of the request: the endpoint, `?`, the query string. -/
def targetURL (fl : Flags) (apiKey : Bytes) : Bytes :=
  endpoint ++ lit "?" ++ queryString apiKey fl.title fl.lang fl.duration fl.maxViews

/-- Lines 119 to 139 of `handleUpload`: the response body is read and
parsed, and the URL printed. The deferred `resp.Body.Close()` is registered
by the last statement, so it runs only on the path that reaches it. -/
def handleResponse (w : World) (resp : Response) : List Event :=
  match resp.body with
  | Except.error err => [Event.stdout (Println [lit "Error reading response body:", err])]
  | Except.ok body =>
    match Unmarshal body { URL := [] } with
    | Except.error err =>
      [Event.stdout (Println [lit "Error unmarshaling JSON:", w.errorText (GoError.json err)])]
    | Except.ok data => [Event.stdout (Println [lit "Paste URL:", data.URL]), Event.close]

/-- Lines 100 to 109 of `handleUpload`: the request is created and its
headers set. -/
def buildRequest (target byteArray : Bytes) : Except GoError Request :=
  match NewRequest (lit "POST") target byteArray with
  | Except.error err => Except.error err
  | Except.ok req =>
    let req := req.setHeader (lit "Content-Type") (lit "application/octet-stream")
    let req := req.setHeader (lit "Content-Length") (Sprint (Int.ofNat byteArray.length))
    let req := req.setHeader (lit "User-Agent") (lit "Mozilla/5.0 (Go) bakeit library")
    Except.ok req

/-- ASCII lower case of a byte. -/
def asciiLower (c : Byte) : Byte :=
  if 65 ≤ c.val ∧ c.val ≤ 90 then Fin.ofNat (c.val + 32) else c

/-- The function `urlErrorOp`: `Get` for an empty method, otherwise the
first letter of the method followed by the rest in lower case. -/
def urlErrorOp : Bytes → Bytes
  | [] => lit "Get"
  | c :: rest => c :: rest.map asciiLower

/-- The function `strconv.Quote` on printable ASCII, which is what a
request URL consists of: double quotes around the text, with a backslash
in front of a double quote and of a backslash. -/
def Quote (s : Bytes) : Bytes :=
  34 :: (s.flatMap (fun b => if b = 34 ∨ b = 92 then [92, b] else [b]) ++ [34])

/-- The method `(*url.Error).Error`: the operation, the quoted URL and the
cause, as `fmt.Sprintf("%s %q: %s", ...)` writes them. -/
def urlErrorText (op url cause : Bytes) : Bytes :=
  op ++ 32 :: (Quote url ++ 58 :: 32 :: cause)

/-- The method `client.Do`: the response of the transport, or its failure
wrapped in a `*url.Error` that names the method and quotes the URL of the
request. -/
def clientDo (w : World) (req : Request) : Except Bytes Response :=
  match w.roundTrip req with
  | Except.error cause => Except.error (urlErrorText (urlErrorOp req.method) req.url cause)
  | Except.ok resp => Except.ok resp

/-- Lines 84 to 139 of `handleUpload`: what it does once the content is
read. -/
def uploadContent (w : World) (fl : Flags) (apiKey : Bytes) (content : Bytes) : List Event :=
  let byteArray := content
  let target := targetURL fl apiKey
  Event.stdout (Println [lit "URL+QPs:", target]) ::
    match buildRequest target byteArray with
    | Except.error err => [Event.stdout (Println [lit "Error creating request:", w.errorText err])]
    | Except.ok req =>
      Event.send req ::
        match clientDo w req with
        | Except.error err => [Event.stdout (Println [lit "Error sending request:", err])]
        | Except.ok resp => Event.response :: handleResponse w resp

/-- The function `handleUpload`. -/
def handleUpload (w : World) (fl : Flags) (apiKey : Bytes) (args : List Bytes) : List Event :=
  match args with
  | [] =>
    match readFromStdin w with
    | (printed, _, some err) =>
      printed ++ [Event.stdout (Println [lit "Error reading from stdin:", w.errorText err])]
    | (printed, content, none) => printed ++ uploadContent w fl apiKey content
  | file :: _ =>
    match w.readFile file with
    | Except.error err => [Event.stdout (Println [lit "Error reading file:", err])]
    | Except.ok content => uploadContent w fl apiKey content

/-- The function `cobra.CheckErr` on a non-nil error: the message on
standard error, then `os.Exit(1)`. -/
def CheckErr (w : World) (err : GoError) : List Event :=
  [Event.stderr (Println [lit "Error:", w.errorText err]), Event.exit 1]

/-- The `Run` handler of `rootCmd`. -/
def Run (w : World) (fl : Flags) (args : List Bytes) : List Event :=
  match apiKeyPath w with
  | (_, some err) => CheckErr w err
  | (cfgPath, none) =>
    match readApiKey w cfgPath with
    | (_, some err) => CheckErr w err
    | (apiKey, none) =>
      Event.stdout (Println [lit "Found api_key in", cfgPath]) :: handleUpload w fl apiKey args

/-- What cobra makes of the command line: an error of its own (reported on
standard error), a request for help (printed on standard output), or the
flags and arguments it passes to `Run`. -/
inductive CommandLine
  | invalid (report : Bytes)
  | help (text : Bytes)
  | run (fl : Flags) (args : List Bytes)

/-- The status of the first `os.Exit` among the events, if any. -/
def exitStatus : List Event → Option Nat
  | [] => none
  | Event.exit code :: _ => some code
  | _ :: rest => exitStatus rest

/-- The function `Execute`, up to the end of the process:
`rootCmd.Execute()` returns an error only for a command line cobra rejects,
and then the status is 1; a process that no `os.Exit` ended returns from
`main`, with status 0. -/
def Execute (w : World) (cl : CommandLine) : List Event :=
  match cl with
  | CommandLine.invalid report => [Event.stderr report, Event.exit 1]
  | CommandLine.help text => [Event.stdout text, Event.exit 0]
  | CommandLine.run fl args =>
    let events := Run w fl args
    match exitStatus events with
    | some _ => events
    | none => events ++ [Event.exit 0]

/-- The bytes a run writes to standard output. -/
def stdoutText : List Event → Bytes
  | [] => []
  | Event.stdout text :: rest => text ++ stdoutText rest
  | _ :: rest => stdoutText rest

/-- The requests a run hands to the HTTP client. -/
def requestsSent : List Event → List Request
  | [] => []
  | Event.send req :: rest => req :: requestsSent rest
  | _ :: rest => requestsSent rest

/-- The exit status of a finished run. -/
def exitCode (events : List Event) : Nat :=
  (exitStatus events).getD 0

/-- The content `handleUpload` reads: standard input when there is no
argument, the file named by the first argument otherwise. -/
def contentRead (w : World) (args : List Bytes) : Except Bytes Bytes :=
  match args with
  | [] => w.stdin
  | file :: _ => w.readFile file

/-- The request lines 100 to 109 describe, field by field. -/
def uploadRequest (fl : Flags) (apiKey content : Bytes) : Request :=
  { method := lit "POST"
    url := targetURL fl apiKey
    body := content
    header :=
      [(lit "Content-Type", lit "application/octet-stream"),
        (lit "Content-Length", Sprint (Int.ofNat content.length)),
        (lit "User-Agent", lit "Mozilla/5.0 (Go) bakeit library")] }

/-- Whether a run wrote an error report: a line that starts with `Error`,
on standard output or standard error. -/
def reportsError : List Event → Bool
  | [] => false
  | Event.stdout text :: rest => (lit "Error").isPrefixOf text || reportsError rest
  | Event.stderr text :: rest => (lit "Error").isPrefixOf text || reportsError rest
  | _ :: rest => reportsError rest

/-- The number of response bodies open after the events, when `n` were
open before them: a response opens one, a close closes one. -/
def openAfter : Nat → List Event → Nat
  | n, [] => n
  | n, Event.response :: rest => openAfter (n + 1) rest
  | n, Event.close :: rest => openAfter (n - 1) rest
  | n, _ :: rest => openAfter n rest

/-- The number of response bodies a run leaves open: those received and
not closed. -/
def openBodies (events : List Event) : Nat :=
  openAfter 0 events

/-- The writes of a run to standard output, one entry for each call. -/
def stdoutLines : List Event → List Bytes
  | [] => []
  | Event.stdout text :: rest => text :: stdoutLines rest
  | _ :: rest => stdoutLines rest

/-! ## Worlds for the examples -/

/-- A configuration file with the one section `pastery` and the one key
`api_key`. -/
def exampleConfig (key : Bytes) : IniFile :=
  fun sec name => if sec = lit "pastery" ∧ name = lit "api_key" then key else []

/-- A world in which the home directory is `/home/u`, the configuration
file holds `key`, standard input holds `input`, no file exists, and the
service answers every request with `body`. The text of a library error is
the one `encoding/json` gives for the body `not json`. -/
def exampleWorld (key input body : Bytes) : World :=
  { homeDir := Except.ok (lit "/home/u")
    pathSeparator := 47
    iniLoad := fun _ => Except.ok (exampleConfig key)
    stdin := Except.ok input
    readFile := fun path => Except.error (lit "open " ++ path ++ lit ": no such file or directory")
    roundTrip := fun _ => Except.ok { body := Except.ok body }
    libraryErrorText := fun _ =>
      lit "invalid character \x27o\x27 in literal null (expecting \x27u\x27)" }

/-- The world of `exampleWorld` with the network down: every request fails
with the error of a name lookup. -/
def offlineWorld (key input : Bytes) : World :=
  { exampleWorld key input [] with
    roundTrip := fun _ =>
      Except.error (lit "dial tcp: lookup www.pastery.net: no such host") }

/-- The world of `exampleWorld` in which the service answers with the page
` <html>`; the text of a library error is the one `encoding/json` gives for
that body. -/
def htmlWorld : World :=
  { exampleWorld (lit "key") (lit "hi") (lit " <html>") with
    libraryErrorText := fun _ =>
      lit "invalid character \x27<\x27 looking for beginning of value" }
/-! ## What a JSON text says (RFC 8259), for stating what is decoded -/

/-- The character a one-letter escape of a JSON string stands for. -/
def shortEscape (e : Byte) : Option Char :=
  if e = 34 then some (Char.ofNat 34)
  else if e = 92 then some (Char.ofNat 92)
  else if e = 47 then some (Char.ofNat 47)
  else if e = 98 then some (Char.ofNat 8)
  else if e = 102 then some (Char.ofNat 12)
  else if e = 110 then some (Char.ofNat 10)
  else if e = 114 then some (Char.ofNat 13)
  else if e = 116 then some (Char.ofNat 9)
  else none

/-- The value of four hex digits. -/
def hexValue (h1 h2 h3 h4 : Byte) : Nat :=
  ((unhex h1 * 16 + unhex h2) * 16 + unhex h3) * 16 + unhex h4

/-- The bytes between the quotes of a JSON string literal that denotes the
characters `cs`: each character is written as itself in UTF-8 (not for a
quote, a backslash or a control character), as a one-letter escape, as
`\uXXXX`, or as a pair of `\uXXXX` surrogates. -/
inductive JsonChars : List Char → Bytes → Prop
  | nil : JsonChars [] []
  | raw (c : Char) (cs : List Char) (bs : Bytes) :
      32 ≤ c.toNat → c.toNat ≠ 34 → c.toNat ≠ 92 → JsonChars cs bs →
      JsonChars (c :: cs) (encodeRune c.toNat ++ bs)
  | short (c : Char) (e : Byte) (cs : List Char) (bs : Bytes) :
      shortEscape e = some c → JsonChars cs bs → JsonChars (c :: cs) (92 :: e :: bs)
  | hex (c : Char) (h1 h2 h3 h4 : Byte) (cs : List Char) (bs : Bytes) :
      ishex h1 = true → ishex h2 = true → ishex h3 = true → ishex h4 = true →
      hexValue h1 h2 h3 h4 = c.toNat → JsonChars cs bs →
      JsonChars (c :: cs) (92 :: 117 :: h1 :: h2 :: h3 :: h4 :: bs)
  | pair (c : Char) (h1 h2 h3 h4 l1 l2 l3 l4 : Byte) (cs : List Char) (bs : Bytes) :
      ishex h1 = true → ishex h2 = true → ishex h3 = true → ishex h4 = true →
      ishex l1 = true → ishex l2 = true → ishex l3 = true → ishex l4 = true →
      0x10000 ≤ c.toNat →
      hexValue h1 h2 h3 h4 = 0xD800 + (c.toNat - 0x10000) / 1024 →
      hexValue l1 l2 l3 l4 = 0xDC00 + (c.toNat - 0x10000) % 1024 →
      JsonChars cs bs →
      JsonChars (c :: cs)
        (92 :: 117 :: h1 :: h2 :: h3 :: h4 :: 92 :: 117 :: l1 :: l2 :: l3 :: l4 :: bs)

/-- White space of a JSON text. -/
def allSpace (ws : Bytes) : Bool :=
  ws.all isSpace

/-- The JSON texts that are the object with the single member `url` whose
value is the string `cs`: the tokens `{`, `"url"`, `:`, the string, `}`,
with any white space around them. -/
inductive UrlObject (cs : List Char) : Bytes → Prop
  | mk (ws0 ws1 ws2 ws3 ws4 ws5 bs : Bytes) :
      allSpace ws0 = true → allSpace ws1 = true → allSpace ws2 = true →
      allSpace ws3 = true → allSpace ws4 = true → allSpace ws5 = true →
      JsonChars cs bs →
      UrlObject cs
        (ws0 ++ 123 :: (ws1 ++ (34 :: 117 :: 114 :: 108 :: 34 :: (ws2 ++ 58 :: (ws3 ++
          34 :: (bs ++ 34 :: (ws4 ++ 125 :: ws5)))))))

/-- The JSON texts that are the empty object `{}`, with any white space
around the two tokens. -/
inductive EmptyObject : Bytes → Prop
  | mk (ws0 ws1 ws2 : Bytes) :
      allSpace ws0 = true → allSpace ws1 = true → allSpace ws2 = true →
      EmptyObject (ws0 ++ 123 :: (ws1 ++ 125 :: ws2))

/-- Whether a byte can begin a JSON value: `{`, `[`, `"`, `-`, a digit, or
the first letter of `true`, `false` or `null`. -/
def startsValue (c : Byte) : Bool :=
  c = 123 ∨ c = 91 ∨ c = 34 ∨ c = 45 ∨ (48 ≤ c.val ∧ c.val ≤ 57) ∨ c = 116 ∨ c = 102 ∨ c = 110
/-! ## Facts about escaping -/

set_option maxRecDepth 1000000 in
theorem escapeByte_cases : ∀ c : Byte,
    (c = 32 ∧ escapeByte c = [43]) ∨
    (c ≠ 32 ∧ escapeByte c = [37, upperhex (c.val / 16), upperhex (c.val % 16)] ∧
      ishex (upperhex (c.val / 16)) = true ∧ ishex (upperhex (c.val % 16)) = true ∧
      (Fin.ofNat (unhex (upperhex (c.val / 16)) * 16 + unhex (upperhex (c.val % 16))) : Byte) = c) ∨
    (escapeByte c = [c] ∧ shouldEscape c = false ∧ c ≠ 37 ∧ c ≠ 43) := by
  decide

theorem QueryUnescape_cons (c : Byte) (rest : Bytes) (hc : c ≠ 37) :
    QueryUnescape (c :: rest) =
      if c = 43 then (QueryUnescape rest).map (fun t => (32 : Byte) :: t)
      else (QueryUnescape rest).map (fun t => c :: t) := by
  rcases rest with _ | ⟨h1, _ | ⟨h2, r⟩⟩ <;> simp [QueryUnescape, hc]

theorem QueryUnescape_escapeByte (c : Byte) (rest : Bytes) :
    QueryUnescape (escapeByte c ++ rest) = (QueryUnescape rest).map (fun t => c :: t) := by
  rcases escapeByte_cases c with ⟨h1, h2⟩ | ⟨_, h2, h3, h4, h5⟩ | ⟨h2, _, h3, h4⟩
  · subst h1
    rw [h2]
    show QueryUnescape (43 :: rest) = _
    rw [QueryUnescape_cons _ _ (by decide)]
    simp
  · rw [h2]
    show QueryUnescape (37 :: upperhex (c.val / 16) :: upperhex (c.val % 16) :: rest) = _
    rw [QueryUnescape]
    simp [h3, h4, h5]
  · rw [h2]
    show QueryUnescape (c :: rest) = _
    rw [QueryUnescape_cons _ _ h3]
    simp [h4]

theorem QueryUnescape_QueryEscape (s : Bytes) : QueryUnescape (QueryEscape s) = some s := by
  induction s with
  | nil => rfl
  | cons c rest ih =>
    have h : QueryEscape (c :: rest) = escapeByte c ++ QueryEscape rest := by
      simp [QueryEscape]
    rw [h, QueryUnescape_escapeByte, ih]
    rfl

set_option maxRecDepth 1000000 in
theorem escapeByte_all_queryByte : ∀ c : Byte, (escapeByte c).all queryByte = true := by
  decide

theorem escapeByte_queryByte (c : Byte) : ∀ b ∈ escapeByte c, queryByte b = true := by
  have h := escapeByte_all_queryByte c
  simpa [List.all_eq_true] using h

theorem QueryEscape_queryByte (s : Bytes) : ∀ b ∈ QueryEscape s, queryByte b = true := by
  intro b hb
  simp only [QueryEscape, List.mem_flatMap] at hb
  obtain ⟨c, _, hc⟩ := hb
  exact escapeByte_queryByte c b hc

set_option maxRecDepth 1000000 in
theorem queryByte_facts : ∀ b : Byte, queryByte b = true →
    b ≠ 38 ∧ b ≠ 61 ∧ b ≠ 35 ∧ b ≠ 63 ∧ 32 < b.val ∧ b.val < 127 := by
  decide

theorem QueryEscape_of_unreserved (s : Bytes) (h : ∀ b ∈ s, shouldEscape b = false) :
    QueryEscape s = s := by
  induction s with
  | nil => rfl
  | cons c rest ih =>
    have hc : shouldEscape c = false := h c (List.mem_cons_self _ _)
    have hr : QueryEscape rest = rest := ih (fun b hb => h b (List.mem_cons_of_mem _ hb))
    have h32 : c ≠ 32 := by
      intro h0
      subst h0
      revert hc
      decide
    have h1 : QueryEscape (c :: rest) = escapeByte c ++ QueryEscape rest := by
      simp [QueryEscape]
    rw [h1, hr]
    simp [escapeByte, h32, hc]

theorem digit_unreserved (n : Nat) : shouldEscape (Fin.ofNat (48 + n % 10)) = false := by
  have h : n % 10 < 10 := Nat.mod_lt _ (by decide)
  generalize n % 10 = m at h
  interval_cases m <;> decide

theorem formatDigits_unreserved (fuel : Nat) : ∀ (n : Nat) (acc : Bytes),
    (∀ b ∈ acc, shouldEscape b = false) →
    ∀ b ∈ formatDigits fuel n acc, shouldEscape b = false := by
  induction fuel with
  | zero => intro n acc h; simpa [formatDigits] using h
  | succ fuel ih =>
    intro n acc h
    have h1 : ∀ b ∈ (Fin.ofNat (48 + n % 10) :: acc : Bytes), shouldEscape b = false := by
      intro b hb
      rcases List.mem_cons.mp hb with rfl | hb
      · exact digit_unreserved n
      · exact h b hb
    unfold formatDigits
    by_cases h0 : n / 10 = 0
    · simpa [h0] using h1
    · simp only [h0, if_false]
      exact ih _ _ h1

theorem Sprint_unreserved (i : Int) : ∀ b ∈ Sprint i, shouldEscape b = false := by
  cases i with
  | ofNat n =>
    exact formatDigits_unreserved _ _ _ (by simp)
  | negSucc n =>
    intro b hb
    rcases List.mem_cons.mp hb with rfl | hb
    · decide
    · exact formatDigits_unreserved _ _ _ (by simp) b hb

theorem QueryEscape_Sprint (i : Int) : QueryEscape (Sprint i) = Sprint i :=
  QueryEscape_of_unreserved _ (Sprint_unreserved i)

/-! ## Facts about splitting -/

theorem splitOn_ne_nil (sep : Byte) (s : Bytes) : splitOn sep s ≠ [] := by
  cases s with
  | nil => simp [splitOn]
  | cons c rest =>
    unfold splitOn
    split
    · simp
    · split <;> simp

theorem splitOn_append (sep : Byte) (a b : Bytes) (h : sep ∉ a) :
    splitOn sep (a ++ sep :: b) = a :: splitOn sep b := by
  induction a with
  | nil => simp [splitOn]
  | cons c rest ih =>
    have hc : c ≠ sep := fun h0 => h (h0 ▸ List.mem_cons_self _ _)
    have hr : sep ∉ rest := fun h0 => h (List.mem_cons_of_mem _ h0)
    simp [splitOn, hc, ih hr]

theorem splitOn_of_not_mem (sep : Byte) (a : Bytes) (h : sep ∉ a) : splitOn sep a = [a] := by
  induction a with
  | nil => simp [splitOn]
  | cons c rest ih =>
    have hc : c ≠ sep := fun h0 => h (h0 ▸ List.mem_cons_self _ _)
    have hr : sep ∉ rest := fun h0 => h (List.mem_cons_of_mem _ h0)
    simp [splitOn, hc, ih hr]

/-! ## The query string of `handleUpload` -/

theorem lit_api_key : lit "api_key" = [97, 112, 105, 95, 107, 101, 121] := by decide

theorem lit_title : lit "title" = [116, 105, 116, 108, 101] := by decide

theorem lit_language : lit "language" = [108, 97, 110, 103, 117, 97, 103, 101] := by decide

theorem lit_duration : lit "duration" = [100, 117, 114, 97, 116, 105, 111, 110] := by decide

theorem lit_max_views : lit "max_views" = [109, 97, 120, 95, 118, 105, 101, 119, 115] := by decide

theorem uploadParams_sorted (apiKey title lang : Bytes) (duration maxViews : Int) :
    sortByKey (uploadParams apiKey title lang duration maxViews) =
      [(lit "api_key", [apiKey]), (lit "duration", [Sprint duration]), (lit "language", [lang]),
        (lit "max_views", [Sprint maxViews]), (lit "title", [title])] := by
  simp only [uploadParams, lit_api_key, lit_title, lit_language, lit_duration, lit_max_views]
  rfl

set_option maxRecDepth 100000 in
theorem queryString_eq (apiKey title lang : Bytes) (duration maxViews : Int) :
    queryString apiKey title lang duration maxViews =
      lit "api_key" ++ 61 :: (QueryEscape apiKey
        ++ 38 :: (lit "duration" ++ 61 :: (Sprint duration
        ++ 38 :: (lit "language" ++ 61 :: (QueryEscape lang
        ++ 38 :: (lit "max_views" ++ 61 :: (Sprint maxViews
        ++ 38 :: (lit "title" ++ 61 :: QueryEscape title)))))))) := by
  have hk : ∀ s : Bytes, (∀ b ∈ s, shouldEscape b = false) → QueryEscape s = s :=
    QueryEscape_of_unreserved
  simp only [queryString, Values.Encode, uploadParams_sorted, encodeEntries, encodeKey,
    QueryEscape_Sprint]
  rw [hk (lit "api_key") (by decide), hk (lit "duration") (by decide),
    hk (lit "language") (by decide), hk (lit "max_views") (by decide),
    hk (lit "title") (by decide)]
  simp [lit_api_key]

/-! ## Facts about `fmt.Sprint` -/

theorem formatDigits_append (fuel : Nat) : ∀ (n : Nat) (acc : Bytes),
    formatDigits fuel n acc = formatDigits fuel n [] ++ acc := by
  induction fuel with
  | zero => intro n acc; simp [formatDigits]
  | succ fuel ih =>
    intro n acc
    unfold formatDigits
    by_cases h0 : n / 10 = 0
    · simp [h0]
    · simp only [h0, if_false]
      rw [ih (n / 10) (Fin.ofNat (48 + n % 10) :: acc), ih (n / 10) [Fin.ofNat (48 + n % 10)]]
      simp

theorem digitsValue_append (l : Bytes) (d : Byte) :
    digitsValue (l ++ [d]) = digitsValue l * 10 + (d.val - 48) := by
  simp [digitsValue, List.foldl_append]

theorem digit_val (n : Nat) : (Fin.ofNat (48 + n % 10) : Byte).val = 48 + n % 10 := by
  have h : n % 10 < 10 := Nat.mod_lt _ (by decide)
  show (48 + n % 10) % 256 = 48 + n % 10
  omega

theorem digitsValue_formatDigits (fuel : Nat) : ∀ n : Nat, n < fuel →
    digitsValue (formatDigits fuel n []) = n := by
  induction fuel with
  | zero => intro n h; exact absurd h (Nat.not_lt_zero _)
  | succ fuel ih =>
    intro n hn
    unfold formatDigits
    by_cases h0 : n / 10 = 0
    · simp only [h0, if_true]
      have := digitsValue_append [] (Fin.ofNat (48 + n % 10))
      simp only [List.nil_append] at this
      rw [this, digit_val]
      simp [digitsValue]
      omega
    · simp only [h0, if_false]
      rw [formatDigits_append, digitsValue_append, digit_val, ih (n / 10) (by omega)]
      omega

theorem digitsValue_formatNat (n : Nat) : digitsValue (formatNat n) = n :=
  digitsValue_formatDigits (n + 1) n (Nat.lt_succ_self n)

theorem formatDigits_ne_nil (fuel n : Nat) (acc : Bytes) : formatDigits (fuel + 1) n acc ≠ [] := by
  rw [formatDigits_append]
  unfold formatDigits
  by_cases h0 : n / 10 = 0
  · simp [h0]
  · simp only [h0, if_false]
    rw [formatDigits_append]
    simp

theorem formatDigits_digits (fuel : Nat) : ∀ (n : Nat) (acc : Bytes),
    (∀ b ∈ acc, 48 ≤ b.val ∧ b.val ≤ 57) →
    ∀ b ∈ formatDigits fuel n acc, 48 ≤ b.val ∧ b.val ≤ 57 := by
  induction fuel with
  | zero => intro n acc h; simpa [formatDigits] using h
  | succ fuel ih =>
    intro n acc h
    have h1 : ∀ b ∈ (Fin.ofNat (48 + n % 10) :: acc : Bytes), 48 ≤ b.val ∧ b.val ≤ 57 := by
      intro b hb
      rcases List.mem_cons.mp hb with rfl | hb
      · rw [digit_val]
        omega
      · exact h b hb
    unfold formatDigits
    by_cases h0 : n / 10 = 0
    · simpa [h0] using h1
    · simp only [h0, if_false]
      exact ih _ _ h1

theorem formatNat_digits (n : Nat) : ∀ b ∈ formatNat n, 48 ≤ b.val ∧ b.val ≤ 57 :=
  formatDigits_digits _ _ _ (by simp)

theorem formatNat_all_digits (n : Nat) :
    (formatNat n).all (fun b => 48 ≤ b.val && b.val ≤ 57) = true := by
  rw [List.all_eq_true]
  intro b hb
  have := formatNat_digits n b hb
  simp [this.1, this.2]

theorem isDecimal_Sprint (i : Int) : isDecimal (Sprint i) = true := by
  cases i with
  | ofNat n =>
    have hne : formatNat n ≠ [] := formatDigits_ne_nil _ _ _
    have hall := formatNat_all_digits n
    show isDecimal (formatNat n) = true
    cases hf : formatNat n with
    | nil => exact absurd hf hne
    | cons c rest =>
      have hc := formatNat_digits n c (by rw [hf]; exact List.mem_cons_self _ _)
      have h45 : c ≠ 45 := by
        intro h
        subst h
        exact absurd hc (by decide)
      rw [hf] at hall
      simp only [isDecimal, h45, if_false]
      exact hall
  | negSucc n =>
    have hne : formatNat (n + 1) ≠ [] := formatDigits_ne_nil _ _ _
    have hall := formatNat_all_digits (n + 1)
    show isDecimal (45 :: formatNat (n + 1)) = true
    simp only [isDecimal, if_true, hall, Bool.and_true]
    cases hf : formatNat (n + 1) with
    | nil => exact absurd hf hne
    | cons c rest => rfl

theorem decimalValue_Sprint (i : Int) : decimalValue (Sprint i) = i := by
  cases i with
  | ofNat n =>
    show decimalValue (formatNat n) = _
    have hne : formatNat n ≠ [] := formatDigits_ne_nil _ _ _
    cases hf : formatNat n with
    | nil => exact absurd hf hne
    | cons c rest =>
      have hc := formatNat_digits n c (by rw [hf]; exact List.mem_cons_self _ _)
      have h45 : c ≠ 45 := by
        intro h
        subst h
        exact absurd hc (by decide)
      simp only [decimalValue, h45, if_false]
      rw [← hf, digitsValue_formatNat]
      rfl
  | negSucc n =>
    show decimalValue (45 :: formatNat (n + 1)) = _
    simp only [decimalValue, if_true, digitsValue_formatNat]
    rfl
/-! ## The request `handleUpload` builds -/

/-- A byte that may stand in the target URL: printable ASCII, not a space
and not `#`. -/
theorem queryByte_url (b : Byte) (h : queryByte b = true) :
    32 < b.val ∧ b.val < 127 ∧ b ≠ 35 := by
  obtain ⟨_, _, h3, _, h5, h6⟩ := queryByte_facts b h
  exact ⟨h5, h6, h3⟩

set_option maxRecDepth 1000000 in
theorem unreserved_queryByte : ∀ b : Byte, shouldEscape b = false → queryByte b = true := by
  decide

set_option maxRecDepth 100000 in
theorem targetURL_bytes (fl : Flags) (apiKey : Bytes) :
    ∀ b ∈ targetURL fl apiKey, 32 < b.val ∧ b.val < 127 ∧ b ≠ 35 := by
  have hlit : ∀ s : Bytes, s.all (fun b => 32 < b.val ∧ b.val < 127 ∧ b ≠ 35) = true →
      ∀ b ∈ s, 32 < b.val ∧ b.val < 127 ∧ b ≠ 35 := by
    intro s hs b hb
    have := List.all_eq_true.mp hs b hb
    simpa using this
  have hesc : ∀ s : Bytes, ∀ b ∈ QueryEscape s, 32 < b.val ∧ b.val < 127 ∧ b ≠ 35 :=
    fun s b hb => queryByte_url b (QueryEscape_queryByte s b hb)
  have hnum : ∀ i : Int, ∀ b ∈ Sprint i, 32 < b.val ∧ b.val < 127 ∧ b ≠ 35 :=
    fun i b hb => queryByte_url b (unreserved_queryByte b (Sprint_unreserved i b hb))
  intro b hb
  simp only [targetURL, queryString_eq, List.mem_append, List.mem_cons] at hb
  rcases hb with (hb | hb) | hb | hb | hb | hb | hb | hb | hb | hb | hb | hb | hb | hb | hb |
    hb | hb | hb | hb | hb | hb
  · exact hlit endpoint (by decide) b hb
  · exact hlit (lit "?") (by decide) b hb
  · exact hlit (lit "api_key") (by decide) b hb
  · subst hb; decide
  · exact hesc _ b hb
  · subst hb; decide
  · exact hlit (lit "duration") (by decide) b hb
  · subst hb; decide
  · exact hnum _ b hb
  · subst hb; decide
  · exact hlit (lit "language") (by decide) b hb
  · subst hb; decide
  · exact hesc _ b hb
  · subst hb; decide
  · exact hlit (lit "max_views") (by decide) b hb
  · subst hb; decide
  · exact hnum _ b hb
  · subst hb; decide
  · exact hlit (lit "title") (by decide) b hb
  · subst hb; decide
  · exact hesc _ b hb

set_option maxRecDepth 100000 in
theorem targetURL_quote_free (fl : Flags) (apiKey : Bytes) :
    (34 : Byte) ∉ targetURL fl apiKey ∧ (92 : Byte) ∉ targetURL fl apiKey := by
  have hlit : ∀ s : Bytes, s.all (fun b => b ≠ 34 ∧ b ≠ 92) = true →
      ∀ b ∈ s, b ≠ 34 ∧ b ≠ 92 := by
    intro s hs b hb
    have := List.all_eq_true.mp hs b hb
    simpa using this
  have hq : ∀ b : Byte, queryByte b = true → b ≠ 34 ∧ b ≠ 92 := by
    intro b hb
    constructor
    · intro h0
      subst h0
      revert hb
      decide
    · intro h0
      subst h0
      revert hb
      decide
  have hesc : ∀ s : Bytes, ∀ b ∈ QueryEscape s, b ≠ 34 ∧ b ≠ 92 :=
    fun s b hb => hq b (QueryEscape_queryByte s b hb)
  have hnum : ∀ i : Int, ∀ b ∈ Sprint i, b ≠ 34 ∧ b ≠ 92 :=
    fun i b hb => hq b (unreserved_queryByte b (Sprint_unreserved i b hb))
  have hall : ∀ b ∈ targetURL fl apiKey, b ≠ 34 ∧ b ≠ 92 := by
    intro b hb
    simp only [targetURL, queryString_eq, List.mem_append, List.mem_cons] at hb
    rcases hb with (hb | hb) | hb | hb | hb | hb | hb | hb | hb | hb | hb | hb | hb | hb | hb |
      hb | hb | hb | hb | hb | hb
    · exact hlit endpoint (by decide) b hb
    · exact hlit (lit "?") (by decide) b hb
    · exact hlit (lit "api_key") (by decide) b hb
    · subst hb; decide
    · exact hesc _ b hb
    · subst hb; decide
    · exact hlit (lit "duration") (by decide) b hb
    · subst hb; decide
    · exact hnum _ b hb
    · subst hb; decide
    · exact hlit (lit "language") (by decide) b hb
    · subst hb; decide
    · exact hesc _ b hb
    · subst hb; decide
    · exact hlit (lit "max_views") (by decide) b hb
    · subst hb; decide
    · exact hnum _ b hb
    · subst hb; decide
    · exact hlit (lit "title") (by decide) b hb
    · subst hb; decide
    · exact hesc _ b hb
  exact ⟨fun h => (hall 34 h).1 rfl, fun h => (hall 92 h).2 rfl⟩

theorem fragmentOf_none (s : Bytes) (h : ∀ b ∈ s, b ≠ 35) : fragmentOf s = none := by
  induction s with
  | nil => rfl
  | cons c rest ih =>
    have hc : c ≠ 35 := h c (List.mem_cons_self _ _)
    simp [fragmentOf, hc, ih (fun b hb => h b (List.mem_cons_of_mem _ hb))]

theorem NewRequest_targetURL (fl : Flags) (apiKey method body : Bytes) :
    NewRequest method (targetURL fl apiKey) body =
      Except.ok { method := method, url := targetURL fl apiKey, body := body, header := [] } := by
  have hb := targetURL_bytes fl apiKey
  have h1 : stringContainsCTLByte (targetURL fl apiKey) = false := by
    simp only [stringContainsCTLByte, List.any_eq_false]
    intro b hmem
    obtain ⟨h32, h127, _⟩ := hb b hmem
    simp
    omega
  have h2 : fragmentOf (targetURL fl apiKey) = none :=
    fragmentOf_none _ (fun b hmem => (hb b hmem).2.2)
  simp [NewRequest, h1, h2]

set_option maxRecDepth 100000 in
theorem buildRequest_eq (fl : Flags) (apiKey content : Bytes) :
    buildRequest (targetURL fl apiKey) content = Except.ok (uploadRequest fl apiKey content) := by
  simp only [buildRequest, NewRequest_targetURL, Request.setHeader, uploadRequest]
  have h1 : (lit "Content-Type" = lit "Content-Length") = False := by decide
  have h2 : (lit "Content-Type" = lit "User-Agent") = False := by decide
  have h3 : (lit "Content-Length" = lit "User-Agent") = False := by decide
  simp [headerSet, h1, h2, h3]

set_option maxRecDepth 100000 in
theorem urlErrorOp_post : urlErrorOp (lit "POST") = lit "Post" := by decide

theorem Quote_plain (s : Bytes) (h : ∀ b ∈ s, b ≠ 34 ∧ b ≠ 92) :
    Quote s = 34 :: (s ++ [34]) := by
  have hmap : s.flatMap (fun b => if b = 34 ∨ b = 92 then [92, b] else [b]) = s := by
    induction s with
    | nil => rfl
    | cons c rest ih =>
      have hc := h c (List.mem_cons_self _ _)
      have hn : ¬ (c = 34 ∨ c = 92) := by
        intro h0
        rcases h0 with h0 | h0
        · exact hc.1 h0
        · exact hc.2 h0
      simp only [List.flatMap_cons, hn, if_false, List.singleton_append]
      rw [ih (fun b hb => h b (List.mem_cons_of_mem _ hb))]
  simp only [Quote, hmap]

theorem Quote_targetURL (fl : Flags) (apiKey : Bytes) :
    Quote (targetURL fl apiKey) = 34 :: (targetURL fl apiKey ++ [34]) := by
  apply Quote_plain
  intro b hb
  constructor
  · intro h0
    subst h0
    exact absurd (targetURL_quote_free fl apiKey) (fun hfree => hfree.1 hb)
  · intro h0
    subst h0
    exact absurd (targetURL_quote_free fl apiKey) (fun hfree => hfree.2 hb)

theorem clientDo_eq (w : World) (fl : Flags) (apiKey content : Bytes) :
    clientDo w (uploadRequest fl apiKey content) =
      match w.roundTrip (uploadRequest fl apiKey content) with
      | Except.error cause =>
        Except.error (lit "Post \"" ++ targetURL fl apiKey ++ lit "\": " ++ cause)
      | Except.ok resp => Except.ok resp := by
  unfold clientDo
  cases w.roundTrip (uploadRequest fl apiKey content) with
  | error cause =>
    have h1 : (uploadRequest fl apiKey content).method = lit "POST" := rfl
    have h2 : (uploadRequest fl apiKey content).url = targetURL fl apiKey := rfl
    simp only [h1, h2, urlErrorOp_post, urlErrorText, Quote_targetURL]
    have e1 : lit "Post \"" = lit "Post" ++ [32, 34] := by decide
    have e2 : lit "\": " = [34, 58, 32] := by decide
    rw [e1, e2]
    simp
  | ok resp => rfl

theorem uploadContent_eq (w : World) (fl : Flags) (apiKey content : Bytes) :
    uploadContent w fl apiKey content =
      Event.stdout (Println [lit "URL+QPs:", targetURL fl apiKey]) ::
        Event.send (uploadRequest fl apiKey content) ::
          match w.roundTrip (uploadRequest fl apiKey content) with
          | Except.error cause =>
            [Event.stdout (Println [lit "Error sending request:",
              lit "Post \"" ++ targetURL fl apiKey ++ lit "\": " ++ cause])]
          | Except.ok resp => Event.response :: handleResponse w resp := by
  simp only [uploadContent, buildRequest_eq, clientDo_eq]
  cases w.roundTrip (uploadRequest fl apiKey content) <;> rfl

theorem handleUpload_of_content (w : World) (fl : Flags) (apiKey : Bytes) (args : List Bytes)
    (content : Bytes) (h : contentRead w args = Except.ok content) :
    handleUpload w fl apiKey args = uploadContent w fl apiKey content := by
  cases args with
  | nil =>
    simp only [contentRead] at h
    simp [handleUpload, readFromStdin, h]
  | cons file rest =>
    simp only [contentRead] at h
    simp [handleUpload, h]
/-! ## Facts about the events of a run -/

theorem requestsSent_handleResponse (w : World) (resp : Response) :
    requestsSent (handleResponse w resp) = [] := by
  unfold handleResponse
  split
  · rfl
  · split <;> rfl

theorem exitStatus_handleResponse (w : World) (resp : Response) :
    exitStatus (handleResponse w resp) = none := by
  unfold handleResponse
  split
  · rfl
  · split <;> rfl

theorem requestsSent_uploadContent (w : World) (fl : Flags) (apiKey content : Bytes) :
    requestsSent (uploadContent w fl apiKey content) = [uploadRequest fl apiKey content] := by
  rw [uploadContent_eq]
  cases h : w.roundTrip (uploadRequest fl apiKey content) with
  | error err => rfl
  | ok resp => simp [requestsSent, requestsSent_handleResponse]

theorem exitStatus_uploadContent (w : World) (fl : Flags) (apiKey content : Bytes) :
    exitStatus (uploadContent w fl apiKey content) = none := by
  rw [uploadContent_eq]
  cases h : w.roundTrip (uploadRequest fl apiKey content) with
  | error err => rfl
  | ok resp => simp [exitStatus, exitStatus_handleResponse]

theorem handleUpload_of_error (w : World) (fl : Flags) (apiKey : Bytes) (args : List Bytes)
    (err : Bytes) (h : contentRead w args = Except.error err) :
    handleUpload w fl apiKey args =
      match args with
      | [] =>
        [Event.stdout (Println [lit "Error reading input from stdin:", err]),
          Event.stdout (Println [lit "Error reading from stdin:", err])]
      | _ :: _ => [Event.stdout (Println [lit "Error reading file:", err])] := by
  cases args with
  | nil =>
    simp only [contentRead] at h
    simp [handleUpload, readFromStdin, h, World.errorText]
  | cons file rest =>
    simp only [contentRead] at h
    simp [handleUpload, h]

theorem exitStatus_handleUpload (w : World) (fl : Flags) (apiKey : Bytes) (args : List Bytes) :
    exitStatus (handleUpload w fl apiKey args) = none := by
  cases h : contentRead w args with
  | error err =>
    rw [handleUpload_of_error w fl apiKey args err h]
    cases args <;> rfl
  | ok content =>
    rw [handleUpload_of_content w fl apiKey args content h, exitStatus_uploadContent]
/-! ## Facts about UTF-8 -/

theorem ofNat_val (n : Nat) : (Fin.ofNat n : Byte).val = n % 256 := rfl

theorem utf8_cons (c : Char) (cs : List Char) : utf8 (c :: cs) = encodeRune c.toNat ++ utf8 cs := by
  simp [utf8]

theorem char_valid (c : Char) : c.toNat < 0xD800 ∨ (0xDFFF < c.toNat ∧ c.toNat < 0x110000) :=
  c.valid

theorem encodeRune_ascii (r : Nat) (h : r < 128) : encodeRune r = [Fin.ofNat r] := by
  have : r ≤ 0x7F := by omega
  simp [encodeRune, this]

theorem DecodeRune_two (a c : Nat) (rest : Bytes) (ha : 2 ≤ a ∧ a < 32) (hc : c < 64) :
    DecodeRune (Fin.ofNat (0xC0 + a) :: Fin.ofNat (0x80 + c) :: rest) = (a * 64 + c, 2) := by
  simp only [DecodeRune, ofNat_val, List.length_cons]
  have e0 : (0xC0 + a) % 256 = 0xC0 + a := by omega
  have e1 : (0x80 + c) % 256 = 0x80 + c := by omega
  simp only [e0, e1]
  have g1 : ¬ (0xC0 + a < 0x80) := by omega
  have g2 : ¬ (0xC0 + a < 0xC2 ∨ 0xF4 < 0xC0 + a) := by omega
  have g3 : 0xC0 + a < 0xE0 := by omega
  have g4 : ¬ (0xC0 + a = 0xE0) := by omega
  have g5 : ¬ (0xC0 + a = 0xF0) := by omega
  have g6 : ¬ (0xC0 + a = 0xED) := by omega
  have g7 : ¬ (0xC0 + a = 0xF4) := by omega
  have g8 : ¬ (rest.length + 1 + 1 < 2) := by omega
  have g9 : ¬ (0x80 + c < 0x80 ∨ 0xBF < 0x80 + c) := by omega
  simp only [g1, g2, g3, g4, g5, g6, g7, g8, g9, if_true, if_false, le_refl, Prod.mk.injEq,
    and_true]
  omega

theorem DecodeRune_three (a b c : Nat) (rest : Bytes) (ha : a < 16) (hb : b < 64) (hc : c < 64)
    (hlo : a = 0 → 32 ≤ b) (hhi : a = 13 → b < 32) :
    DecodeRune (Fin.ofNat (0xE0 + a) :: Fin.ofNat (0x80 + b) :: Fin.ofNat (0x80 + c) :: rest) =
      (a * 4096 + b * 64 + c, 3) := by
  simp only [DecodeRune, ofNat_val, List.length_cons]
  have e0 : (0xE0 + a) % 256 = 0xE0 + a := by omega
  have e1 : (0x80 + b) % 256 = 0x80 + b := by omega
  have e2 : (0x80 + c) % 256 = 0x80 + c := by omega
  simp only [e0, e1, e2]
  have g1 : ¬ (0xE0 + a < 0x80) := by omega
  have g2 : ¬ (0xE0 + a < 0xC2 ∨ 0xF4 < 0xE0 + a) := by omega
  have g3 : ¬ (0xE0 + a < 0xE0) := by omega
  have g3b : 0xE0 + a < 0xF0 := by omega
  have g5 : ¬ (0xE0 + a = 0xF0) := by omega
  have g7 : ¬ (0xE0 + a = 0xF4) := by omega
  have g8 : ¬ (rest.length + 1 + 1 + 1 < 3) := by omega
  have g9 : ¬ (0x80 + c < 0x80 ∨ 0xBF < 0x80 + c) := by omega
  have g10 : ¬ ((3 : Nat) ≤ 2) := by omega
  simp only [g1, g2, g3, g3b, g5, g7, g8, g9, g10, if_true, if_false, le_refl]
  by_cases k0 : a = 0
  · have k1 : ¬ (0x80 + b < 0xA0 ∨ 0xBF < 0x80 + b) := by have := hlo k0; omega
    subst k0
    have k2 : ¬ ((0xE0 : Nat) = 0xED) := by omega
    simp only [Nat.add_zero, k2, if_true, if_false, k1, Prod.mk.injEq, and_true]
    omega
  · by_cases k13 : a = 13
    · have k1 : ¬ (0x80 + b < 0x80 ∨ 0x9F < 0x80 + b) := by have := hhi k13; omega
      subst k13
      have k2 : ¬ ((0xE0 + 13 : Nat) = 0xE0) := by omega
      simp only [k2, if_true, if_false, k1, Prod.mk.injEq, and_true]
      omega
    · have k1 : ¬ (0xE0 + a = 0xE0) := by omega
      have k2 : ¬ (0xE0 + a = 0xED) := by omega
      have k3 : ¬ (0x80 + b < 0x80 ∨ 0xBF < 0x80 + b) := by omega
      simp only [k1, k2, k3, if_true, if_false, Prod.mk.injEq, and_true]
      omega

theorem DecodeRune_four (a b c d : Nat) (rest : Bytes) (ha : a < 5) (hb : b < 64) (hc : c < 64)
    (hd : d < 64) (hlo : a = 0 → 16 ≤ b) (hhi : a = 4 → b < 16) :
    DecodeRune (Fin.ofNat (0xF0 + a) :: Fin.ofNat (0x80 + b) :: Fin.ofNat (0x80 + c) ::
      Fin.ofNat (0x80 + d) :: rest) = (a * 262144 + b * 4096 + c * 64 + d, 4) := by
  simp only [DecodeRune, ofNat_val, List.length_cons]
  have e0 : (0xF0 + a) % 256 = 0xF0 + a := by omega
  have e1 : (0x80 + b) % 256 = 0x80 + b := by omega
  have e2 : (0x80 + c) % 256 = 0x80 + c := by omega
  have e3 : (0x80 + d) % 256 = 0x80 + d := by omega
  simp only [e0, e1, e2, e3]
  have g1 : ¬ (0xF0 + a < 0x80) := by omega
  have g2 : ¬ (0xF0 + a < 0xC2 ∨ 0xF4 < 0xF0 + a) := by omega
  have g3 : ¬ (0xF0 + a < 0xE0) := by omega
  have g3b : ¬ (0xF0 + a < 0xF0) := by omega
  have g5 : ¬ (0xF0 + a = 0xE0) := by omega
  have g7 : ¬ (0xF0 + a = 0xED) := by omega
  have g8 : ¬ (rest.length + 1 + 1 + 1 + 1 < 4) := by omega
  have g9 : ¬ (0x80 + c < 0x80 ∨ 0xBF < 0x80 + c) := by omega
  have g9b : ¬ (0x80 + d < 0x80 ∨ 0xBF < 0x80 + d) := by omega
  have g10 : ¬ ((4 : Nat) ≤ 2) := by omega
  have g11 : ¬ ((4 : Nat) ≤ 3) := by omega
  simp only [g1, g2, g3, g3b, g5, g7, g8, g9, g9b, g10, g11, if_true, if_false, le_refl]
  by_cases k0 : a = 0
  · have k1 : ¬ (0x80 + b < 0x90 ∨ 0xBF < 0x80 + b) := by have := hlo k0; omega
    subst k0
    have k2 : ¬ ((0xF0 : Nat) = 0xF4) := by omega
    simp only [Nat.add_zero, k2, if_true, if_false, k1, Prod.mk.injEq, and_true]
    omega
  · by_cases k4 : a = 4
    · have k1 : ¬ (0x80 + b < 0x80 ∨ 0x8F < 0x80 + b) := by have := hhi k4; omega
      subst k4
      have k2 : ¬ ((0xF0 + 4 : Nat) = 0xF0) := by omega
      simp only [k2, if_true, if_false, k1, Prod.mk.injEq, and_true]
      omega
    · have k1 : ¬ (0xF0 + a = 0xF0) := by omega
      have k2 : ¬ (0xF0 + a = 0xF4) := by omega
      have k3 : ¬ (0x80 + b < 0x80 ∨ 0xBF < 0x80 + b) := by omega
      simp only [k1, k2, k3, if_true, if_false, Prod.mk.injEq, and_true]
      omega

theorem DecodeRune_encodeRune (r : Nat) (rest : Bytes) (h128 : 128 ≤ r)
    (hv : r < 0xD800 ∨ (0xDFFF < r ∧ r < 0x110000)) :
    DecodeRune (encodeRune r ++ rest) = (r, (encodeRune r).length) := by
  unfold encodeRune
  have h1 : ¬ r ≤ 0x7F := by omega
  simp only [h1, if_false]
  by_cases h2 : r ≤ 0x7FF
  · simp only [h2, if_true, List.cons_append, List.nil_append, List.length_cons, List.length_nil]
    rw [DecodeRune_two (r / 64) (r % 64) rest (by omega) (by omega)]
    simp only [Prod.mk.injEq, and_true]
    omega
  · have h3 : ¬ (r > 0x10FFFF ∨ (0xD800 ≤ r ∧ r ≤ 0xDFFF)) := by omega
    simp only [h2, h3, if_false]
    by_cases h4 : r ≤ 0xFFFF
    · simp only [h4, if_true, List.cons_append, List.nil_append, List.length_cons,
        List.length_nil]
      rw [DecodeRune_three (r / 4096) (r / 64 % 64) (r % 64) rest (by omega) (by omega)
        (by omega) (by omega) (by omega)]
      simp only [Prod.mk.injEq, and_true]
      omega
    · simp only [h4, if_false, List.cons_append, List.nil_append, List.length_cons,
        List.length_nil]
      rw [DecodeRune_four (r / 262144) (r / 4096 % 64) (r / 64 % 64) (r % 64) rest (by omega)
        (by omega) (by omega) (by omega) (by omega) (by omega)]
      simp only [Prod.mk.injEq, and_true]
      omega
/-! ## Facts about the bytes of a JSON string -/

theorem encodeRune_high (r : Nat) (h : 128 ≤ r) : ∀ b ∈ encodeRune r, 128 ≤ b.val := by
  intro b hb
  unfold encodeRune at hb
  have h1 : ¬ r ≤ 0x7F := by omega
  simp only [h1, if_false] at hb
  split_ifs at hb <;> simp only [List.mem_cons, List.mem_singleton, List.not_mem_nil, or_false] at hb
  · rcases hb with rfl | rfl <;> simp only [ofNat_val] <;> omega
  · rcases hb with rfl | rfl | rfl <;> decide
  · rcases hb with rfl | rfl | rfl <;> simp only [ofNat_val] <;> omega
  · rcases hb with rfl | rfl | rfl | rfl <;> simp only [ofNat_val] <;> omega

theorem encodeRune_ne_nil (r : Nat) : encodeRune r ≠ [] := by
  unfold encodeRune
  split_ifs <;> simp

/-- A byte that stands for itself inside a JSON string. -/
theorem encodeRune_plain (r : Nat) (h32 : 32 ≤ r) (h34 : r ≠ 34) (h92 : r ≠ 92) :
    ∀ b ∈ encodeRune r, 32 ≤ b.val ∧ b ≠ 34 ∧ b ≠ 92 := by
  intro b hb
  by_cases h : r < 128
  · rw [encodeRune_ascii r h] at hb
    simp only [List.mem_singleton] at hb
    subst hb
    have hv : (Fin.ofNat r : Byte).val = r := by
      rw [ofNat_val]
      omega
    refine ⟨by omega, ?_, ?_⟩
    · intro h0
      have := congrArg Fin.val h0
      rw [hv] at this
      exact h34 this
    · intro h0
      have := congrArg Fin.val h0
      rw [hv] at this
      exact h92 this
  · have hb2 := encodeRune_high r (by omega) b hb
    refine ⟨by omega, ?_, ?_⟩
    · intro h0
      subst h0
      exact absurd hb2 (by decide)
    · intro h0
      subst h0
      exact absurd hb2 (by decide)

theorem hex_plain (h : Byte) (hh : ishex h = true) : 32 ≤ h.val ∧ h ≠ 34 ∧ h ≠ 92 := by
  revert h
  set_option maxRecDepth 1000000 in decide

theorem shortEscape_cases (e : Byte) (c : Char) (h : shortEscape e = some c) :
    e ≠ 117 ∧ (e = 98 ∨ e = 102 ∨ e = 110 ∨ e = 114 ∨ e = 116 ∨ e = 92 ∨ e = 47 ∨ e = 34) ∧
    ∃ b : Byte, unescapeLetter e = some b ∧ encodeRune c.toNat = [b] := by
  unfold shortEscape at h
  split_ifs at h with h1 h2 h3 h4 h5 h6 h7 h8 <;>
    simp only [Option.some.injEq] at h <;> subst h
  · subst h1; exact ⟨by decide, by decide, 34, by decide, by decide⟩
  · subst h2; exact ⟨by decide, by decide, 92, by decide, by decide⟩
  · subst h3; exact ⟨by decide, by decide, 47, by decide, by decide⟩
  · subst h4; exact ⟨by decide, by decide, 8, by decide, by decide⟩
  · subst h5; exact ⟨by decide, by decide, 12, by decide, by decide⟩
  · subst h6; exact ⟨by decide, by decide, 10, by decide, by decide⟩
  · subst h7; exact ⟨by decide, by decide, 13, by decide, by decide⟩
  · subst h8; exact ⟨by decide, by decide, 9, by decide, by decide⟩

/-! ## The scanner inside a string -/

theorem Scanner.run_nil (s : Scanner) : s.run [] = s := rfl

theorem Scanner.run_cons (s : Scanner) (c : Byte) (rest : Bytes) :
    s.run (c :: rest) = (s.next c).run rest := rfl

theorem Scanner.run_append (s : Scanner) (a b : Bytes) : s.run (a ++ b) = (s.run a).run b := by
  simp [Scanner.run, List.foldl_append]

theorem next_inString_plain (ps : List ParseState) (et : Bool) (b : Byte)
    (h : 32 ≤ b.val ∧ b ≠ 34 ∧ b ≠ 92) :
    Scanner.next ⟨Step.inString, et, ps⟩ b = ⟨Step.inString, et, ps⟩ := by
  have h1 : ¬ b.val < 32 := by omega
  simp [Scanner.next, stateInString, h.2.1, h.2.2, h1]

theorem run_inString_plain (ps : List ParseState) (et : Bool) (l : Bytes)
    (h : ∀ b ∈ l, 32 ≤ b.val ∧ b ≠ 34 ∧ b ≠ 92) :
    Scanner.run ⟨Step.inString, et, ps⟩ l = ⟨Step.inString, et, ps⟩ := by
  induction l with
  | nil => rfl
  | cons b rest ih =>
    rw [Scanner.run_cons, next_inString_plain ps et b (h b (List.mem_cons_self _ _))]
    exact ih (fun x hx => h x (List.mem_cons_of_mem _ hx))

theorem run_inString_escape (ps : List ParseState) (et : Bool) (e : Byte)
    (h : e = 98 ∨ e = 102 ∨ e = 110 ∨ e = 114 ∨ e = 116 ∨ e = 92 ∨ e = 47 ∨ e = 34) :
    Scanner.run ⟨Step.inString, et, ps⟩ [92, e] = ⟨Step.inString, et, ps⟩ := by
  simp [Scanner.run, Scanner.next, stateInString, stateInStringEsc, h]

theorem run_inString_hex (ps : List ParseState) (et : Bool) (h1 h2 h3 h4 : Byte)
    (k1 : ishex h1 = true) (k2 : ishex h2 = true) (k3 : ishex h3 = true) (k4 : ishex h4 = true) :
    Scanner.run ⟨Step.inString, et, ps⟩ [92, 117, h1, h2, h3, h4] = ⟨Step.inString, et, ps⟩ := by
  simp [Scanner.run, Scanner.next, stateInString, stateInStringEsc, stateHex, k1, k2, k3, k4]

theorem run_inString_chars (cs : List Char) (bs : Bytes) (h : JsonChars cs bs)
    (ps : List ParseState) (et : Bool) :
    Scanner.run ⟨Step.inString, et, ps⟩ bs = ⟨Step.inString, et, ps⟩ := by
  induction h with
  | nil => rfl
  | raw c cs bs h32 h34 h92 _ ih =>
    rw [Scanner.run_append, run_inString_plain ps et _ (encodeRune_plain _ h32 h34 h92), ih]
  | short c e cs bs he _ ih =>
    have := run_inString_escape ps et e (shortEscape_cases e c he).2.1
    rw [show (92 :: e :: bs : Bytes) = [92, e] ++ bs from rfl, Scanner.run_append, this, ih]
  | hex c h1 h2 h3 h4 cs bs k1 k2 k3 k4 _ _ ih =>
    have := run_inString_hex ps et h1 h2 h3 h4 k1 k2 k3 k4
    rw [show (92 :: 117 :: h1 :: h2 :: h3 :: h4 :: bs : Bytes) = [92, 117, h1, h2, h3, h4] ++ bs
      from rfl, Scanner.run_append, this, ih]
  | pair c h1 h2 h3 h4 l1 l2 l3 l4 cs bs k1 k2 k3 k4 m1 m2 m3 m4 _ _ _ _ ih =>
    have e1 := run_inString_hex ps et h1 h2 h3 h4 k1 k2 k3 k4
    have e2 := run_inString_hex ps et l1 l2 l3 l4 m1 m2 m3 m4
    rw [show (92 :: 117 :: h1 :: h2 :: h3 :: h4 :: 92 :: 117 :: l1 :: l2 :: l3 :: l4 :: bs : Bytes)
      = [92, 117, h1, h2, h3, h4] ++ ([92, 117, l1, l2, l3, l4] ++ bs) from rfl,
      Scanner.run_append, e1, Scanner.run_append, e2, ih]
/-! ## Unquoting and skipping a JSON string -/

theorem skipNested_plain (d : Nat) (l t : Bytes) (h : ∀ b ∈ l, 32 ≤ b.val ∧ b ≠ 34 ∧ b ≠ 92) :
    skipNested d SkipMode.str (l ++ t) = skipNested d SkipMode.str t := by
  induction l with
  | nil => rfl
  | cons b rest ih =>
    have hb := h b (List.mem_cons_self _ _)
    rw [List.cons_append, skipNested]
    simp only [hb.2.1, hb.2.2, if_false]
    exact ih (fun x hx => h x (List.mem_cons_of_mem _ hx))

theorem skipNested_escape (d : Nat) (e : Byte) (rest : Bytes) :
    skipNested d SkipMode.str (92 :: e :: rest) = skipNested d SkipMode.str rest := by
  rw [skipNested]
  simp only [show ((92 : Byte) = 34) = False from by decide, if_false, if_true]
  rw [skipNested]

theorem skipNested_quote (rest : Bytes) : skipNested 0 SkipMode.str (34 :: rest) = rest := by
  rw [skipNested]
  simp

theorem skipNested_hex (d : Nat) (h1 h2 h3 h4 : Byte) (rest : Bytes)
    (k1 : ishex h1 = true) (k2 : ishex h2 = true) (k3 : ishex h3 = true) (k4 : ishex h4 = true) :
    skipNested d SkipMode.str (92 :: 117 :: h1 :: h2 :: h3 :: h4 :: rest) =
      skipNested d SkipMode.str rest := by
  have hp : ∀ b ∈ [h1, h2, h3, h4], 32 ≤ b.val ∧ b ≠ 34 ∧ b ≠ 92 := by
    intro b hb
    simp only [List.mem_cons, List.mem_singleton, List.not_mem_nil, or_false] at hb
    rcases hb with rfl | rfl | rfl | rfl
    · exact hex_plain _ k1
    · exact hex_plain _ k2
    · exact hex_plain _ k3
    · exact hex_plain _ k4
  rw [skipNested_escape]
  exact skipNested_plain d [h1, h2, h3, h4] rest hp

theorem skipNested_chars (cs : List Char) (bs : Bytes) (h : JsonChars cs bs) (rest : Bytes) :
    skipNested 0 SkipMode.str (bs ++ 34 :: rest) = rest := by
  induction h with
  | nil => exact skipNested_quote rest
  | raw c cs bs h32 h34 h92 _ ih =>
    rw [List.append_assoc, skipNested_plain 0 _ _ (encodeRune_plain _ h32 h34 h92), ih]
  | short c e cs bs he _ ih =>
    show skipNested 0 SkipMode.str (92 :: e :: (bs ++ 34 :: rest)) = rest
    rw [skipNested_escape, ih]
  | hex c h1 h2 h3 h4 cs bs k1 k2 k3 k4 _ _ ih =>
    show skipNested 0 SkipMode.str (92 :: 117 :: h1 :: h2 :: h3 :: h4 :: (bs ++ 34 :: rest)) = rest
    rw [skipNested_hex 0 _ _ _ _ _ k1 k2 k3 k4, ih]
  | pair c h1 h2 h3 h4 l1 l2 l3 l4 cs bs k1 k2 k3 k4 m1 m2 m3 m4 _ _ _ _ ih =>
    show skipNested 0 SkipMode.str (92 :: 117 :: h1 :: h2 :: h3 :: h4 ::
      92 :: 117 :: l1 :: l2 :: l3 :: l4 :: (bs ++ 34 :: rest)) = rest
    rw [skipNested_hex 0 _ _ _ _ _ k1 k2 k3 k4, skipNested_hex 0 _ _ _ _ _ m1 m2 m3 m4, ih]

theorem getu4_hex (h1 h2 h3 h4 : Byte) (rest : Bytes)
    (k1 : ishex h1 = true) (k2 : ishex h2 = true) (k3 : ishex h3 = true) (k4 : ishex h4 = true) :
    getu4 (92 :: 117 :: h1 :: h2 :: h3 :: h4 :: rest) = some (hexValue h1 h2 h3 h4, rest) := by
  simp [getu4, k1, k2, k3, k4, hexValue]

theorem unquoteLoop_ascii (fuel : Nat) (c : Byte) (rest : Bytes)
    (h : 32 ≤ c.val ∧ c ≠ 34 ∧ c ≠ 92) (h128 : c.val < 128) :
    unquoteLoop (fuel + 1) (c :: rest) = (unquoteLoop fuel rest).map (fun r => (c :: r.1, r.2)) := by
  have h1 : ¬ c.val < 32 := by omega
  simp [unquoteLoop, h.2.1, h.2.2, h1, h128]

theorem unquoteLoop_high (fuel : Nat) (c : Byte) (rest : Bytes) (h128 : 128 ≤ c.val) :
    unquoteLoop (fuel + 1) (c :: rest) =
      (unquoteLoop fuel ((c :: rest).drop (DecodeRune (c :: rest)).2)).map
        (fun r => (encodeRune (DecodeRune (c :: rest)).1 ++ r.1, r.2)) := by
  have h1 : ¬ c.val < 32 := by omega
  have h2 : ¬ c.val < 128 := by omega
  have h3 : c ≠ 34 := by
    intro h
    subst h
    exact absurd h128 (by decide)
  have h4 : c ≠ 92 := by
    intro h
    subst h
    exact absurd h128 (by decide)
  simp [unquoteLoop, h1, h2, h3, h4]

theorem unquoteLoop_short (fuel : Nat) (e b : Byte) (rest : Bytes) (he : e ≠ 117)
    (hb : unescapeLetter e = some b) :
    unquoteLoop (fuel + 1) (92 :: e :: rest) =
      (unquoteLoop fuel rest).map (fun r => (b :: r.1, r.2)) := by
  simp [unquoteLoop, he, hb]

theorem unquoteLoop_hex (fuel : Nat) (h1 h2 h3 h4 : Byte) (rest : Bytes)
    (k1 : ishex h1 = true) (k2 : ishex h2 = true) (k3 : ishex h3 = true) (k4 : ishex h4 = true)
    (hs : IsSurrogate (hexValue h1 h2 h3 h4) = false) :
    unquoteLoop (fuel + 1) (92 :: 117 :: h1 :: h2 :: h3 :: h4 :: rest) =
      (unquoteLoop fuel rest).map (fun r => (encodeRune (hexValue h1 h2 h3 h4) ++ r.1, r.2)) := by
  simp [unquoteLoop, getu4_hex _ _ _ _ _ k1 k2 k3 k4, hs]

theorem unquoteLoop_pair (fuel : Nat) (h1 h2 h3 h4 l1 l2 l3 l4 : Byte) (rest : Bytes)
    (k1 : ishex h1 = true) (k2 : ishex h2 = true) (k3 : ishex h3 = true) (k4 : ishex h4 = true)
    (m1 : ishex l1 = true) (m2 : ishex l2 = true) (m3 : ishex l3 = true) (m4 : ishex l4 = true)
    (hs : IsSurrogate (hexValue h1 h2 h3 h4) = true)
    (hd : utf16DecodeRune (hexValue h1 h2 h3 h4) (hexValue l1 l2 l3 l4) ≠ RuneError) :
    unquoteLoop (fuel + 1)
        (92 :: 117 :: h1 :: h2 :: h3 :: h4 :: 92 :: 117 :: l1 :: l2 :: l3 :: l4 :: rest) =
      (unquoteLoop fuel rest).map (fun r =>
        (encodeRune (utf16DecodeRune (hexValue h1 h2 h3 h4) (hexValue l1 l2 l3 l4)) ++ r.1, r.2)) := by
  simp [unquoteLoop, getu4_hex _ _ _ _ _ k1 k2 k3 k4, getu4_hex _ _ _ _ _ m1 m2 m3 m4, hs, hd]

theorem utf16_pair (r hi lo : Nat) (h16 : 0x10000 ≤ r) (hmax : r < 0x110000)
    (hhi : hi = 0xD800 + (r - 0x10000) / 1024) (hlo : lo = 0xDC00 + (r - 0x10000) % 1024) :
    IsSurrogate hi = true ∧ utf16DecodeRune hi lo = r ∧ utf16DecodeRune hi lo ≠ RuneError := by
  have h1 : 0xD800 ≤ hi ∧ hi < 0xDC00 := by omega
  have h2 : 0xDC00 ≤ lo ∧ lo < 0xE000 := by omega
  have h3 : utf16DecodeRune hi lo = r := by
    have hc : 0xD800 ≤ hi ∧ hi < 0xDC00 ∧ 0xDC00 ≤ lo ∧ lo < 0xE000 := ⟨h1.1, h1.2, h2.1, h2.2⟩
    simp only [utf16DecodeRune, hc, and_self, if_true]
    omega
  refine ⟨?_, h3, ?_⟩
  · have : 0xD800 ≤ hi ∧ hi < 0xE000 := by omega
    simp [IsSurrogate, this]
  · rw [h3]
    simp only [RuneError]
    omega

theorem char_not_surrogate (c : Char) : IsSurrogate c.toNat = false := by
  have h := char_valid c
  have : ¬ (0xD800 ≤ c.toNat ∧ c.toNat < 0xE000) := by omega
  simp [IsSurrogate, this]

theorem unquoteLoop_chars (cs : List Char) (bs : Bytes) (h : JsonChars cs bs) :
    ∀ (fuel : Nat) (rest : Bytes), bs.length < fuel →
      unquoteLoop fuel (bs ++ 34 :: rest) = some (utf8 cs, rest) := by
  induction h with
  | nil =>
    intro fuel rest hf
    obtain ⟨f, rfl⟩ : ∃ f, fuel = f + 1 := ⟨fuel - 1, by omega⟩
    simp [unquoteLoop, utf8]
  | raw c cs bs h32 h34 h92 _ ih =>
    intro fuel rest hf
    obtain ⟨f, rfl⟩ : ∃ f, fuel = f + 1 := ⟨fuel - 1, by omega⟩
    rw [List.length_append] at hf
    have hlen : 0 < (encodeRune c.toNat).length :=
      List.length_pos.mpr (encodeRune_ne_nil _)
    rw [utf8_cons, List.append_assoc]
    by_cases hlow : c.toNat < 128
    · have hplain := encodeRune_plain _ h32 h34 h92
      rw [encodeRune_ascii _ hlow] at hplain ⊢
      have hb := hplain (Fin.ofNat c.toNat) (List.mem_singleton.mpr rfl)
      have hv : (Fin.ofNat c.toNat : Byte).val < 128 := by
        rw [ofNat_val]
        omega
      show unquoteLoop (f + 1) (Fin.ofNat c.toNat :: (bs ++ 34 :: rest)) = _
      rw [unquoteLoop_ascii f _ _ hb hv, ih f rest (by omega)]
      rfl
    · have hhigh := encodeRune_high c.toNat (by omega)
      have hdec := DecodeRune_encodeRune c.toNat (bs ++ 34 :: rest) (by omega) (char_valid c)
      cases henc : encodeRune c.toNat with
      | nil => exact absurd henc (encodeRune_ne_nil _)
      | cons c0 tl =>
        rw [henc] at hdec hhigh
        have h0 : 128 ≤ c0.val := hhigh c0 (List.mem_cons_self _ _)
        show unquoteLoop (f + 1) (c0 :: (tl ++ (bs ++ 34 :: rest))) = _
        rw [unquoteLoop_high f c0 _ h0]
        have hdec2 : DecodeRune (c0 :: (tl ++ (bs ++ 34 :: rest))) =
            (c.toNat, (c0 :: tl).length) := hdec
        rw [hdec2]
        have hdrop : List.drop (c0 :: tl).length (c0 :: (tl ++ (bs ++ 34 :: rest))) =
            bs ++ 34 :: rest := by
          rw [← List.cons_append]
          exact List.drop_left _ _
        simp only [hdrop]
        rw [ih f rest (by omega), henc]
        rfl
  | short c e cs bs he _ ih =>
    intro fuel rest hf
    obtain ⟨f, rfl⟩ : ∃ f, fuel = f + 1 := ⟨fuel - 1, by omega⟩
    simp only [List.length_cons] at hf
    obtain ⟨hne, _, b, hb, henc⟩ := shortEscape_cases e c he
    show unquoteLoop (f + 1) (92 :: e :: (bs ++ 34 :: rest)) = _
    rw [unquoteLoop_short f e b _ hne hb, ih f rest (by omega), utf8_cons, henc]
    rfl
  | hex c h1 h2 h3 h4 cs bs k1 k2 k3 k4 hval _ ih =>
    intro fuel rest hf
    obtain ⟨f, rfl⟩ : ∃ f, fuel = f + 1 := ⟨fuel - 1, by omega⟩
    simp only [List.length_cons] at hf
    show unquoteLoop (f + 1) (92 :: 117 :: h1 :: h2 :: h3 :: h4 :: (bs ++ 34 :: rest)) = _
    rw [unquoteLoop_hex f _ _ _ _ _ k1 k2 k3 k4 (by rw [hval]; exact char_not_surrogate c),
      ih f rest (by omega), utf8_cons, hval]
    rfl
  | pair c h1 h2 h3 h4 l1 l2 l3 l4 cs bs k1 k2 k3 k4 m1 m2 m3 m4 h16 hhi hlo _ ih =>
    intro fuel rest hf
    obtain ⟨f, rfl⟩ : ∃ f, fuel = f + 1 := ⟨fuel - 1, by omega⟩
    simp only [List.length_cons] at hf
    have hmax : c.toNat < 0x110000 := by
      have := char_valid c
      omega
    obtain ⟨hs, hd, hne⟩ := utf16_pair c.toNat _ _ h16 hmax hhi hlo
    show unquoteLoop (f + 1) (92 :: 117 :: h1 :: h2 :: h3 :: h4 ::
      92 :: 117 :: l1 :: l2 :: l3 :: l4 :: (bs ++ 34 :: rest)) = _
    rw [unquoteLoop_pair f _ _ _ _ _ _ _ _ _ k1 k2 k3 k4 m1 m2 m3 m4 hs hne,
      ih f rest (by omega), utf8_cons, hd]
    rfl

theorem unquote_chars (cs : List Char) (bs : Bytes) (h : JsonChars cs bs) (rest : Bytes) :
    unquote (bs ++ 34 :: rest) = some (utf8 cs, rest) := by
  unfold unquote
  apply unquoteLoop_chars cs bs h
  simp only [List.length_append, List.length_cons]
  omega
/-! ## White space, and the two JSON texts of the claims -/

theorem allSpace_cons (c : Byte) (ws : Bytes) :
    allSpace (c :: ws) = true ↔ isSpace c = true ∧ allSpace ws = true := by
  simp [allSpace]

theorem skipSpace_append (ws : Bytes) (c : Byte) (rest : Bytes) (h : allSpace ws = true)
    (hc : isSpace c = false) : skipSpace (ws ++ c :: rest) = c :: rest := by
  induction ws with
  | nil => simp [skipSpace, hc]
  | cons b ws ih =>
    obtain ⟨hb, hws⟩ := (allSpace_cons b ws).mp h
    simp [skipSpace, hb, ih hws]

theorem run_spaces (s : Scanner) (hs : ∀ c, isSpace c = true → s.next c = s) (ws : Bytes)
    (h : allSpace ws = true) : s.run ws = s := by
  induction ws with
  | nil => rfl
  | cons b ws ih =>
    obtain ⟨hb, hws⟩ := (allSpace_cons b ws).mp h
    rw [Scanner.run_cons, hs b hb, ih hws]

theorem stable_beginValue (et : Bool) (ps : List ParseState) (c : Byte) (h : isSpace c = true) :
    Scanner.next ⟨Step.beginValue, et, ps⟩ c = ⟨Step.beginValue, et, ps⟩ := by
  simp [Scanner.next, stateBeginValue, h]

theorem stable_beginStringOrEmpty (et : Bool) (ps : List ParseState) (c : Byte)
    (h : isSpace c = true) :
    Scanner.next ⟨Step.beginStringOrEmpty, et, ps⟩ c = ⟨Step.beginStringOrEmpty, et, ps⟩ := by
  simp [Scanner.next, stateBeginStringOrEmpty, h]

theorem stable_endValue (et : Bool) (p : ParseState) (ps : List ParseState) (c : Byte)
    (h : isSpace c = true) :
    Scanner.next ⟨Step.endValue, et, p :: ps⟩ c = ⟨Step.endValue, et, p :: ps⟩ := by
  simp [Scanner.next, stateEndValue, h]

theorem stable_endTop (ps : List ParseState) (c : Byte) (h : isSpace c = true) :
    Scanner.next ⟨Step.endTop, true, ps⟩ c = ⟨Step.endTop, true, ps⟩ := by
  simp [Scanner.next, stateEndTop, h]

theorem jsonChars_url : JsonChars [Char.ofNat 117, Char.ofNat 114, Char.ofNat 108] [117, 114, 108] :=
  JsonChars.raw (Char.ofNat 117) _ _ (by decide) (by decide) (by decide)
    (JsonChars.raw (Char.ofNat 114) _ _ (by decide) (by decide) (by decide)
      (JsonChars.raw (Char.ofNat 108) _ _ (by decide) (by decide) (by decide) JsonChars.nil))

theorem checkValid_urlObject (cs : List Char) (body : Bytes) (h : UrlObject cs body) :
    checkValid body = true := by
  cases h with
  | mk ws0 ws1 ws2 ws3 ws4 ws5 bs h0 h1 h2 h3 h4 h5 hbs =>
    have e0 := run_spaces ⟨Step.beginValue, false, []⟩ (stable_beginValue _ _) ws0 h0
    have e1 := run_spaces ⟨Step.beginStringOrEmpty, false, [ParseState.objectKey]⟩
      (stable_beginStringOrEmpty _ _) ws1 h1
    have e2 := run_spaces ⟨Step.endValue, false, [ParseState.objectKey]⟩
      (stable_endValue _ _ _) ws2 h2
    have e3 := run_spaces ⟨Step.beginValue, false, [ParseState.objectValue]⟩
      (stable_beginValue _ _) ws3 h3
    have e4 := run_spaces ⟨Step.endValue, false, [ParseState.objectValue]⟩
      (stable_endValue _ _ _) ws4 h4
    have e5 := run_spaces ⟨Step.endTop, true, []⟩ (stable_endTop _) ws5 h5
    have ek := run_inString_chars _ _ jsonChars_url [ParseState.objectKey] false
    have ev := run_inString_chars cs bs hbs [ParseState.objectValue] false
    have n0 : Scanner.next ⟨Step.beginValue, false, []⟩ 123 =
        ⟨Step.beginStringOrEmpty, false, [ParseState.objectKey]⟩ := by decide
    have n1 : Scanner.next ⟨Step.beginStringOrEmpty, false, [ParseState.objectKey]⟩ 34 =
        ⟨Step.inString, false, [ParseState.objectKey]⟩ := by decide
    have n2 : Scanner.next ⟨Step.inString, false, [ParseState.objectKey]⟩ 34 =
        ⟨Step.endValue, false, [ParseState.objectKey]⟩ := by decide
    have n3 : Scanner.next ⟨Step.endValue, false, [ParseState.objectKey]⟩ 58 =
        ⟨Step.beginValue, false, [ParseState.objectValue]⟩ := by decide
    have n4 : Scanner.next ⟨Step.beginValue, false, [ParseState.objectValue]⟩ 34 =
        ⟨Step.inString, false, [ParseState.objectValue]⟩ := by decide
    have n5 : Scanner.next ⟨Step.inString, false, [ParseState.objectValue]⟩ 34 =
        ⟨Step.endValue, false, [ParseState.objectValue]⟩ := by decide
    have n6 : Scanner.next ⟨Step.endValue, false, [ParseState.objectValue]⟩ 125 =
        ⟨Step.endTop, true, []⟩ := by decide
    have hrun : Scanner.reset.run (ws0 ++ 123 :: (ws1 ++ (34 :: 117 :: 114 :: 108 :: 34 ::
        (ws2 ++ 58 :: (ws3 ++ 34 :: (bs ++ 34 :: (ws4 ++ 125 :: ws5))))))) =
        ⟨Step.endTop, true, []⟩ := by
      show Scanner.run ⟨Step.beginValue, false, []⟩ _ = _
      rw [Scanner.run_append, e0, Scanner.run_cons, n0, Scanner.run_append, e1, Scanner.run_cons,
        n1, show (117 :: 114 :: 108 :: 34 :: (ws2 ++ 58 :: (ws3 ++ 34 :: (bs ++ 34 ::
          (ws4 ++ 125 :: ws5)))) : Bytes) = [117, 114, 108] ++ 34 :: (ws2 ++ 58 :: (ws3 ++ 34 ::
          (bs ++ 34 :: (ws4 ++ 125 :: ws5)))) from rfl,
        Scanner.run_append, ek, Scanner.run_cons, n2, Scanner.run_append, e2, Scanner.run_cons,
        n3, Scanner.run_append, e3, Scanner.run_cons, n4, Scanner.run_append, ev,
        Scanner.run_cons, n5, Scanner.run_append, e4, Scanner.run_cons, n6, e5]
    unfold checkValid
    rw [hrun]
    rfl

theorem decodeValue_urlObject (cs : List Char) (body : Bytes) (h : UrlObject cs body)
    (v : ResponseData) :
    decodeValue body v = some ({ URL := utf8 cs }, none) := by
  cases h with
  | mk ws0 ws1 ws2 ws3 ws4 ws5 bs h0 h1 h2 h3 h4 h5 hbs =>
    have s0 := skipSpace_append ws0 123 (ws1 ++ (34 :: 117 :: 114 :: 108 :: 34 ::
      (ws2 ++ 58 :: (ws3 ++ 34 :: (bs ++ 34 :: (ws4 ++ 125 :: ws5)))))) h0 (by decide)
    have s1 := skipSpace_append ws1 34 (117 :: 114 :: 108 :: 34 ::
      (ws2 ++ 58 :: (ws3 ++ 34 :: (bs ++ 34 :: (ws4 ++ 125 :: ws5))))) h1 (by decide)
    have s2 := skipSpace_append ws2 58 (ws3 ++ 34 :: (bs ++ 34 :: (ws4 ++ 125 :: ws5))) h2
      (by decide)
    have s3 := skipSpace_append ws3 34 (bs ++ 34 :: (ws4 ++ 125 :: ws5)) h3 (by decide)
    have s4 := skipSpace_append ws4 125 ws5 h4 (by decide)
    have uk := unquote_chars _ _ jsonChars_url (ws2 ++ 58 :: (ws3 ++ 34 ::
      (bs ++ 34 :: (ws4 ++ 125 :: ws5))))
    have uv := unquote_chars cs bs hbs (ws4 ++ 125 :: ws5)
    have sv := skipNested_chars cs bs hbs (ws4 ++ 125 :: ws5)
    have hm : matchesURL (utf8 [Char.ofNat 117, Char.ofNat 114, Char.ofNat 108]) = true := by
      decide
    have uk2 : unquote (117 :: 114 :: 108 :: 34 :: (ws2 ++ 58 :: (ws3 ++ 34 ::
        (bs ++ 34 :: (ws4 ++ 125 :: ws5))))) =
        some (utf8 [Char.ofNat 117, Char.ofNat 114, Char.ofNat 108],
          ws2 ++ 58 :: (ws3 ++ 34 :: (bs ++ 34 :: (ws4 ++ 125 :: ws5)))) := uk
    have hskip : skipValue (34 :: (bs ++ 34 :: (ws4 ++ 125 :: ws5))) = ws4 ++ 125 :: ws5 := by
      rw [skipValue]
      simp only [if_true]
      exact sv
    have hstore : storeURL (34 :: (bs ++ 34 :: (ws4 ++ 125 :: ws5))) v none =
        some ({ URL := utf8 cs }, none) := by
      simp [storeURL, uv]
    unfold decodeValue
    rw [s0]
    simp only [if_true]
    rw [objectLoop, s1]
    simp only [show ((34 : Byte) = 125) = False from by decide, if_false, if_true, uk2, s2, s3, hm,
      hstore, hskip, s4]

theorem run_emptyObject (body : Bytes) (h : EmptyObject body) :
    Scanner.reset.run body = ⟨Step.endTop, true, []⟩ := by
  cases h with
  | mk ws0 ws1 ws2 h0 h1 h2 =>
    have e0 := run_spaces ⟨Step.beginValue, false, []⟩ (stable_beginValue _ _) ws0 h0
    have e1 := run_spaces ⟨Step.beginStringOrEmpty, false, [ParseState.objectKey]⟩
      (stable_beginStringOrEmpty _ _) ws1 h1
    have e2 := run_spaces ⟨Step.endTop, true, []⟩ (stable_endTop _) ws2 h2
    have n0 : Scanner.next ⟨Step.beginValue, false, []⟩ 123 =
        ⟨Step.beginStringOrEmpty, false, [ParseState.objectKey]⟩ := by decide
    have n1 : Scanner.next ⟨Step.beginStringOrEmpty, false, [ParseState.objectKey]⟩ 125 =
        ⟨Step.endTop, true, []⟩ := by decide
    show Scanner.run ⟨Step.beginValue, false, []⟩ _ = _
    rw [Scanner.run_append, e0, Scanner.run_cons, n0, Scanner.run_append, e1, Scanner.run_cons,
      n1, e2]

theorem checkValid_emptyObject (body : Bytes) (h : EmptyObject body) : checkValid body = true := by
  unfold checkValid
  rw [run_emptyObject body h]
  rfl

theorem run_error (et : Bool) (ps : List ParseState) (l : Bytes) :
    Scanner.run ⟨Step.error, et, ps⟩ l = ⟨Step.error, et, ps⟩ := by
  induction l with
  | nil => rfl
  | cons c rest ih =>
    rw [Scanner.run_cons]
    exact ih

set_option maxRecDepth 1000000 in
theorem next_bad_start : ∀ c : Byte, isSpace c = false → startsValue c = false →
    Scanner.next ⟨Step.beginValue, false, []⟩ c = ⟨Step.error, false, []⟩ := by
  decide

set_option maxRecDepth 1000000 in
theorem next_after_top : ∀ c : Byte, isSpace c = false →
    Scanner.next ⟨Step.endTop, true, []⟩ c = ⟨Step.error, true, []⟩ := by
  decide

/-- A body whose first byte after the white space cannot begin a JSON
value is not valid JSON. -/
theorem checkValid_bad_start (ws : Bytes) (c : Byte) (rest : Bytes) (hws : allSpace ws = true)
    (hc : isSpace c = false) (hstart : startsValue c = false) :
    checkValid (ws ++ c :: rest) = false := by
  have e0 := run_spaces ⟨Step.beginValue, false, []⟩ (stable_beginValue _ _) ws hws
  have hrun : Scanner.reset.run (ws ++ c :: rest) = ⟨Step.error, false, []⟩ := by
    show Scanner.run ⟨Step.beginValue, false, []⟩ _ = _
    rw [Scanner.run_append, e0, Scanner.run_cons, next_bad_start c hc hstart, run_error]
  unfold checkValid
  rw [hrun]
  rfl

/-- A body of white space only, the empty body included, is not valid
JSON. -/
theorem checkValid_no_value (ws : Bytes) (hws : allSpace ws = true) : checkValid ws = false := by
  have e0 := run_spaces ⟨Step.beginValue, false, []⟩ (stable_beginValue _ _) ws hws
  have hrun : Scanner.reset.run ws = ⟨Step.beginValue, false, []⟩ := e0
  unfold checkValid
  rw [hrun]
  rfl

/-- An object followed by a byte other than white space is not valid
JSON. -/
theorem checkValid_trailing (body : Bytes) (c : Byte) (rest : Bytes) (h : EmptyObject body)
    (hc : isSpace c = false) : checkValid (body ++ c :: rest) = false := by
  have hrun : Scanner.reset.run (body ++ c :: rest) = ⟨Step.error, true, []⟩ := by
    rw [Scanner.run_append, run_emptyObject body h, Scanner.run_cons, next_after_top c hc,
      run_error]
  unfold checkValid
  rw [hrun]
  rfl

theorem decodeValue_emptyObject (body : Bytes) (h : EmptyObject body) (v : ResponseData) :
    decodeValue body v = some (v, none) := by
  cases h with
  | mk ws0 ws1 ws2 h0 h1 h2 =>
    have s0 := skipSpace_append ws0 123 (ws1 ++ 125 :: ws2) h0 (by decide)
    have s1 := skipSpace_append ws1 125 ws2 h1 (by decide)
    unfold decodeValue
    rw [s0]
    simp only [if_true]
    rw [objectLoop, s1]
    simp only [if_true]

theorem Unmarshal_urlObject (cs : List Char) (body : Bytes) (h : UrlObject cs body)
    (v : ResponseData) : Unmarshal body v = Except.ok { URL := utf8 cs } := by
  simp [Unmarshal, checkValid_urlObject cs body h, decodeValue_urlObject cs body h v]

theorem Unmarshal_emptyObject (body : Bytes) (h : EmptyObject body) (v : ResponseData) :
    Unmarshal body v = Except.ok v := by
  simp [Unmarshal, checkValid_emptyObject body h, decodeValue_emptyObject body h v]

theorem Unmarshal_invalid (body : Bytes) (h : checkValid body = false) (v : ResponseData) :
    Unmarshal body v = Except.error JsonError.malformed := by
  simp [Unmarshal, h]

theorem jsonChars_plain (cs : List Char)
    (h : ∀ c ∈ cs, 32 ≤ c.toNat ∧ c.toNat ≠ 34 ∧ c.toNat ≠ 92) : JsonChars cs (utf8 cs) := by
  induction cs with
  | nil => exact JsonChars.nil
  | cons c cs ih =>
    have hc := h c (List.mem_cons_self _ _)
    rw [utf8_cons]
    exact JsonChars.raw c cs _ hc.1 hc.2.1 hc.2.2 (ih (fun x hx => h x (List.mem_cons_of_mem _ hx)))
/-! ## The claims -/

theorem splitOn_pair (k v : Bytes) (hk : (61 : Byte) ∉ k) (hv : (61 : Byte) ∉ v) :
    splitOn 61 (k ++ 61 :: v) = [k, v] := by
  rw [splitOn_append 61 k v hk, splitOn_of_not_mem 61 v hv]

theorem QueryEscape_no_sep (s : Bytes) : (38 : Byte) ∉ QueryEscape s ∧ (61 : Byte) ∉ QueryEscape s := by
  constructor
  · intro h
    exact (queryByte_facts _ (QueryEscape_queryByte s _ h)).1 rfl
  · intro h
    exact (queryByte_facts _ (QueryEscape_queryByte s _ h)).2.1 rfl

theorem Sprint_no_sep (i : Int) : (38 : Byte) ∉ Sprint i ∧ (61 : Byte) ∉ Sprint i := by
  have h := QueryEscape_no_sep (Sprint i)
  rwa [QueryEscape_Sprint] at h

set_option maxRecDepth 100000 in
theorem queryString_parts (apiKey title lang : Bytes) (duration maxViews : Int) :
    splitOn 38 (queryString apiKey title lang duration maxViews) =
      [lit "api_key" ++ 61 :: QueryEscape apiKey, lit "duration" ++ 61 :: Sprint duration,
        lit "language" ++ 61 :: QueryEscape lang, lit "max_views" ++ 61 :: Sprint maxViews,
        lit "title" ++ 61 :: QueryEscape title] := by
  have part : ∀ (k v : Bytes), (38 : Byte) ∉ k → (38 : Byte) ∉ v → (38 : Byte) ∉ k ++ 61 :: v := by
    intro k v hk hv h
    rcases List.mem_append.mp h with h | h
    · exact hk h
    · rcases List.mem_cons.mp h with h | h
      · exact absurd h (by decide)
      · exact hv h
  have e1 := part (lit "api_key") (QueryEscape apiKey) (by decide) (QueryEscape_no_sep _).1
  have e2 := part (lit "duration") (Sprint duration) (by decide) (Sprint_no_sep _).1
  have e3 := part (lit "language") (QueryEscape lang) (by decide) (QueryEscape_no_sep _).1
  have e4 := part (lit "max_views") (Sprint maxViews) (by decide) (Sprint_no_sep _).1
  have e5 := part (lit "title") (QueryEscape title) (by decide) (QueryEscape_no_sep _).1
  have shape : queryString apiKey title lang duration maxViews =
      (lit "api_key" ++ 61 :: QueryEscape apiKey) ++ 38 ::
        ((lit "duration" ++ 61 :: Sprint duration) ++ 38 ::
          ((lit "language" ++ 61 :: QueryEscape lang) ++ 38 ::
            ((lit "max_views" ++ 61 :: Sprint maxViews) ++ 38 ::
              (lit "title" ++ 61 :: QueryEscape title)))) := by
    rw [queryString_eq]
    simp only [List.append_assoc, List.cons_append]
  rw [shape, splitOn_append _ _ _ e1, splitOn_append _ _ _ e2, splitOn_append _ _ _ e3,
    splitOn_append _ _ _ e4, splitOn_of_not_mem _ _ e5]

set_option maxRecDepth 100000 in
theorem queryString_pairs (apiKey title lang : Bytes) (duration maxViews : Int) :
    (splitOn 38 (queryString apiKey title lang duration maxViews)).map (splitOn 61) =
      [[lit "api_key", QueryEscape apiKey], [lit "duration", Sprint duration],
        [lit "language", QueryEscape lang], [lit "max_views", Sprint maxViews],
        [lit "title", QueryEscape title]] := by
  rw [queryString_parts]
  simp only [List.map_cons, List.map_nil]
  rw [splitOn_pair _ _ (by decide) (QueryEscape_no_sep _).2,
    splitOn_pair _ _ (by decide) (Sprint_no_sep _).2,
    splitOn_pair _ _ (by decide) (QueryEscape_no_sep _).2,
    splitOn_pair _ _ (by decide) (Sprint_no_sep _).2,
    splitOn_pair _ _ (by decide) (QueryEscape_no_sep _).2]

/-- C3: the query string of `handleUpload`, split on `&` and then on `=`,
is exactly the five pairs `api_key`, `duration`, `language`, `max_views`,
`title`, each key once; `duration` and `max_views` carry the decimal
rendering of the integers, whatever their sign, and an empty `title` or
`language` is still there, with an empty value. -/
theorem query_has_each_key_once (apiKey title lang : Bytes) (duration maxViews : Int) :
    (splitOn 38 (queryString apiKey title lang duration maxViews)).map (splitOn 61) =
      [[lit "api_key", QueryEscape apiKey], [lit "duration", Sprint duration],
        [lit "language", QueryEscape lang], [lit "max_views", Sprint maxViews],
        [lit "title", QueryEscape title]] ∧
    (splitOn 38 (queryString apiKey [] [] duration maxViews)).map (splitOn 61) =
      [[lit "api_key", QueryEscape apiKey], [lit "duration", Sprint duration],
        [lit "language", []], [lit "max_views", Sprint maxViews], [lit "title", []]] ∧
    isDecimal (Sprint duration) = true ∧ decimalValue (Sprint duration) = duration ∧
    isDecimal (Sprint maxViews) = true ∧ decimalValue (Sprint maxViews) = maxViews :=
  ⟨queryString_pairs apiKey title lang duration maxViews,
    queryString_pairs apiKey [] [] duration maxViews,
    isDecimal_Sprint duration, decimalValue_Sprint duration,
    isDecimal_Sprint maxViews, decimalValue_Sprint maxViews⟩

theorem decodePair_escaped (k v : Bytes) (hk : (61 : Byte) ∉ QueryEscape k) :
    decodePair (QueryEscape k ++ 61 :: QueryEscape v) = some (k, v) := by
  unfold decodePair
  rw [splitOn_pair _ _ hk (QueryEscape_no_sep v).2]
  simp [QueryUnescape_QueryEscape]

set_option maxRecDepth 100000 in
theorem decodeQuery_queryString (apiKey title lang : Bytes) (duration maxViews : Int) :
    decodeQuery (queryString apiKey title lang duration maxViews) =
      some [(lit "api_key", apiKey), (lit "duration", Sprint duration), (lit "language", lang),
        (lit "max_views", Sprint maxViews), (lit "title", title)] := by
  have hk : ∀ s : Bytes, (∀ b ∈ s, shouldEscape b = false) → QueryEscape s = s :=
    QueryEscape_of_unreserved
  have h1 := decodePair_escaped (lit "api_key") apiKey (QueryEscape_no_sep _).2
  have h2 := decodePair_escaped (lit "duration") (Sprint duration) (QueryEscape_no_sep _).2
  have h3 := decodePair_escaped (lit "language") lang (QueryEscape_no_sep _).2
  have h4 := decodePair_escaped (lit "max_views") (Sprint maxViews) (QueryEscape_no_sep _).2
  have h5 := decodePair_escaped (lit "title") title (QueryEscape_no_sep _).2
  rw [hk (lit "api_key") (by decide)] at h1
  rw [hk (lit "duration") (by decide), QueryEscape_Sprint] at h2
  rw [hk (lit "language") (by decide)] at h3
  rw [hk (lit "max_views") (by decide), QueryEscape_Sprint] at h4
  rw [hk (lit "title") (by decide)] at h5
  unfold decodeQuery
  rw [queryString_parts]
  simp [decodeParts, h1, h2, h3, h4, h5]

set_option maxRecDepth 100000 in
/-- C10: the query string of `handleUpload`, split on `&`, each part split
on `=` and both sides decoded, is exactly the five pairs, in ascending key
order, with the values as they were given: nothing is lost, and no value
adds or replaces a parameter. -/
theorem query_decodes_to_the_parameters (apiKey title lang : Bytes) (duration maxViews : Int) :
    decodeQuery (queryString apiKey title lang duration maxViews) =
      some [(lit "api_key", apiKey), (lit "duration", Sprint duration), (lit "language", lang),
        (lit "max_views", Sprint maxViews), (lit "title", title)] ∧
    List.Pairwise (fun a b => bytesLt a b = true)
      [lit "api_key", lit "duration", lit "language", lit "max_views", lit "title"] :=
  ⟨decodeQuery_queryString apiKey title lang duration maxViews, by decide⟩

/-- C8: when the content is read, the one request `handleUpload` hands to
the client is a `POST` to the fixed endpoint followed by `?` and the query
string, with the content as its body and the three headers
`Content-Type: application/octet-stream`, `Content-Length` (the decimal
length of the content) and the fixed `User-Agent`; an empty content gives
an empty body and the length `0`. -/
theorem request_is_the_described_post (w : World) (fl : Flags) (apiKey : Bytes)
    (args : List Bytes) (content : Bytes) (h : contentRead w args = Except.ok content) :
    requestsSent (handleUpload w fl apiKey args) =
      [{ method := lit "POST"
         url := lit "https://www.pastery.net/api/paste/" ++ lit "?" ++
           queryString apiKey fl.title fl.lang fl.duration fl.maxViews
         body := content
         header :=
           [(lit "Content-Type", lit "application/octet-stream"),
             (lit "Content-Length", Sprint (Int.ofNat content.length)),
             (lit "User-Agent", lit "Mozilla/5.0 (Go) bakeit library")] }] ∧
    decimalValue (Sprint (Int.ofNat content.length)) = Int.ofNat content.length ∧
    Sprint (Int.ofNat ([] : Bytes).length) = lit "0" := by
  refine ⟨?_, decimalValue_Sprint _, by decide⟩
  rw [handleUpload_of_content w fl apiKey args content h, requestsSent_uploadContent]
  rfl

/-- C8 at a concrete run: no argument, empty standard input. -/
theorem request_is_the_described_post_witness :
    contentRead (exampleWorld (lit "key") [] (lit "\x7b\x7d")) [] = Except.ok [] ∧
    requestsSent (handleUpload (exampleWorld (lit "key") [] (lit "\x7b\x7d")) Flags.default (lit "key") []) =
      [{ method := lit "POST"
         url := lit "https://www.pastery.net/api/paste/" ++ lit "?" ++
           queryString (lit "key") [] [] 60 0
         body := []
         header :=
           [(lit "Content-Type", lit "application/octet-stream"),
             (lit "Content-Length", Sprint (Int.ofNat ([] : Bytes).length)),
             (lit "User-Agent", lit "Mozilla/5.0 (Go) bakeit library")] }] :=
  ⟨rfl, (request_is_the_described_post (exampleWorld (lit "key") [] (lit "\x7b\x7d")) Flags.default
    (lit "key") [] [] rfl).1⟩

/-- C6: when the content cannot be read (standard input, with no argument,
or the file named by the first argument), `handleUpload` only prints the
read error and returns: no request is built or sent. -/
theorem read_error_sends_nothing (w : World) (fl : Flags) (apiKey : Bytes) (args : List Bytes)
    (err : Bytes) (h : contentRead w args = Except.error err) :
    handleUpload w fl apiKey args =
      (match args with
      | [] =>
        [Event.stdout (Println [lit "Error reading input from stdin:", err]),
          Event.stdout (Println [lit "Error reading from stdin:", err])]
      | _ :: _ => [Event.stdout (Println [lit "Error reading file:", err])]) ∧
    requestsSent (handleUpload w fl apiKey args) = [] ∧
    reportsError (handleUpload w fl apiKey args) = true := by
  have hev := handleUpload_of_error w fl apiKey args err h
  refine ⟨hev, ?_, ?_⟩
  · rw [hev]
    cases args <;> rfl
  · rw [hev]
    cases args with
    | nil =>
      have : (lit "Error").isPrefixOf (Println [lit "Error reading input from stdin:", err]) = true := by
        rfl
      simp [reportsError, this]
    | cons file rest =>
      have : (lit "Error").isPrefixOf (Println [lit "Error reading file:", err]) = true := by
        rfl
      simp [reportsError, this]

/-- C6 at a concrete run: the file `hello.txt` does not exist. -/
theorem read_error_sends_nothing_witness :
    contentRead (exampleWorld (lit "key") [] (lit "\x7b\x7d")) [lit "hello.txt"] =
      Except.error (lit "open hello.txt: no such file or directory") ∧
    requestsSent (handleUpload (exampleWorld (lit "key") [] (lit "\x7b\x7d")) Flags.default (lit "key")
      [lit "hello.txt"]) = [] :=
  ⟨rfl, (read_error_sends_nothing (exampleWorld (lit "key") [] (lit "\x7b\x7d")) Flags.default
    (lit "key") [lit "hello.txt"] (lit "open hello.txt: no such file or directory") rfl).2.1⟩

/-- C5: once the configuration file is loaded, either its `[pastery]`
section has no `api_key` value, and then `readApiKey` returns the empty key
with the error `missing api_key`, the `Run` handler writes that error and
exits with status 1 without calling `handleUpload`, and no request is
sent; or the value is not empty, and then `readApiKey` returns exactly
that value and no error. -/
theorem missing_api_key_stops_before_upload (w : World) (fl : Flags) (args : List Bytes)
    (cfgPath : Bytes) (iniData : IniFile)
    (hpath : apiKeyPath w = (cfgPath, none))
    (hload : w.iniLoad cfgPath = Except.ok iniData) :
    (iniData (lit "pastery") (lit "api_key") = [] ∧
      readApiKey w cfgPath = ([], some (GoError.msg (lit "missing api_key"))) ∧
      Run w fl args = [Event.stderr (lit "Error: missing api_key\n"), Event.exit 1] ∧
      requestsSent (Run w fl args) = [] ∧
      exitCode (Execute w (CommandLine.run fl args)) = 1) ∨
    (iniData (lit "pastery") (lit "api_key") ≠ [] ∧
      readApiKey w cfgPath = (iniData (lit "pastery") (lit "api_key"), none)) := by
  by_cases hv : iniData (lit "pastery") (lit "api_key") = []
  · left
    have hread : readApiKey w cfgPath = ([], some (GoError.msg (lit "missing api_key"))) := by
      simp [readApiKey, hload, hv]
    have hline : Println [lit "Error:", lit "missing api_key"] = lit "Error: missing api_key\n" := by
      decide
    have hrun : Run w fl args = [Event.stderr (lit "Error: missing api_key\n"), Event.exit 1] := by
      simp only [Run, hpath, hread, CheckErr, World.errorText, hline]
    refine ⟨hv, hread, hrun, ?_, ?_⟩
    · rw [hrun]
      rfl
    · simp only [Execute, hrun]
      rfl
  · right
    exact ⟨hv, by simp [readApiKey, hload, hv]⟩

/-- C5 at a concrete run: a configuration file without `api_key`. -/
theorem missing_api_key_stops_before_upload_witness :
    apiKeyPath (exampleWorld [] (lit "hi") (lit "\x7b\x7d")) = (lit "/home/u/.config/bakeit.cfg", none) ∧
    (exampleWorld [] (lit "hi") (lit "\x7b\x7d")).iniLoad (lit "/home/u/.config/bakeit.cfg") =
      Except.ok (exampleConfig []) ∧
    ((exampleConfig [] (lit "pastery") (lit "api_key") = [] ∧
      readApiKey (exampleWorld [] (lit "hi") (lit "\x7b\x7d")) (lit "/home/u/.config/bakeit.cfg") =
        ([], some (GoError.msg (lit "missing api_key"))) ∧
      Run (exampleWorld [] (lit "hi") (lit "\x7b\x7d")) Flags.default [] =
        [Event.stderr (lit "Error: missing api_key\n"), Event.exit 1] ∧
      requestsSent (Run (exampleWorld [] (lit "hi") (lit "\x7b\x7d")) Flags.default []) = [] ∧
      exitCode (Execute (exampleWorld [] (lit "hi") (lit "\x7b\x7d"))
        (CommandLine.run Flags.default [])) = 1) ∨
    (exampleConfig [] (lit "pastery") (lit "api_key") ≠ [] ∧
      readApiKey (exampleWorld [] (lit "hi") (lit "\x7b\x7d")) (lit "/home/u/.config/bakeit.cfg") =
        (exampleConfig [] (lit "pastery") (lit "api_key"), none))) :=
  ⟨by decide, rfl,
    missing_api_key_stops_before_upload (exampleWorld [] (lit "hi") (lit "\x7b\x7d")) Flags.default []
      (lit "/home/u/.config/bakeit.cfg") (exampleConfig []) (by decide) rfl⟩

/-- C7, the claim as stated fails: the service answers `not json`,
`handleUpload` reports the error, and the exit status is 0. -/
theorem reported_error_exits_zero :
    stdoutLines (Execute (exampleWorld (lit "key") (lit "hi") (lit "not json"))
      (CommandLine.run Flags.default [])) =
      [lit "Found api_key in /home/u/.config/bakeit.cfg\n",
        lit ("URL+QPs: https://www.pastery.net/api/paste/" ++
          "?api_key=key&duration=60&language=&max_views=0&title=\n"),
        lit "Error unmarshaling JSON: invalid character \x27o\x27 in literal null (expecting \x27u\x27)\n"] ∧
    reportsError (Execute (exampleWorld (lit "key") (lit "hi") (lit "not json"))
      (CommandLine.run Flags.default [])) = true ∧
    exitCode (Execute (exampleWorld (lit "key") (lit "hi") (lit "not json"))
      (CommandLine.run Flags.default [])) = 0 := by
  decide

/-- C7, as amended: the exit status is 1 exactly when cobra rejects the
command line or the `Run` handler stops on a configuration error (the home
directory or the `api_key` cannot be had); every run that reaches
`handleUpload` ends with status 0, whatever `handleUpload` reports. -/
theorem exit_status_of_a_run (w : World) (cl : CommandLine) :
    exitCode (Execute w cl) =
      match cl with
      | CommandLine.invalid _ => 1
      | CommandLine.help _ => 0
      | CommandLine.run _ _ =>
        if (apiKeyPath w).2.isSome || (readApiKey w (apiKeyPath w).1).2.isSome then 1 else 0 := by
  cases cl with
  | invalid report => rfl
  | help text => rfl
  | run fl args =>
    show exitCode (Execute w (CommandLine.run fl args)) = _
    rcases hp : apiKeyPath w with ⟨cfgPath, _ | err⟩
    · rcases hr : readApiKey w cfgPath with ⟨apiKey, _ | err⟩
      · have hrun : Run w fl args =
            Event.stdout (Println [lit "Found api_key in", cfgPath]) ::
              handleUpload w fl apiKey args := by
          simp only [Run, hp, hr]
        have hex : exitStatus (Run w fl args) = none := by
          rw [hrun]
          simp [exitStatus, exitStatus_handleUpload]
        have hend : exitStatus (Run w fl args ++ [Event.exit 0]) = some 0 := by
          rw [hrun]
          generalize handleUpload w fl apiKey args = evs at hex hrun
          have key : ∀ l : List Event, exitStatus l = none →
              exitStatus (l ++ [Event.exit 0]) = some 0 := by
            intro l
            induction l with
            | nil => intro _; rfl
            | cons e rest ih =>
              intro h
              cases e <;> simp_all [exitStatus]
          apply key
          rw [← hrun]
          exact hex
        simp [Execute, hex, exitCode, hend, hr]
      · have hrun : Run w fl args = CheckErr w err := by
          simp only [Run, hp, hr]
        simp [Execute, hrun, CheckErr, exitStatus, exitCode, hr]
    · have hrun : Run w fl args = CheckErr w err := by
        simp only [Run, hp]
      simp [Execute, hrun, CheckErr, exitStatus, exitCode]

set_option maxRecDepth 100000 in
/-- C9, the code at a failing input: the service answers `not json`; the
response arrives, its body is never closed, and one body is left open. On
the path that prints the paste URL the body is closed and none is left
open. -/
theorem body_left_open_on_parse_error :
    handleUpload (exampleWorld (lit "key") (lit "hi") (lit "not json")) Flags.default (lit "key") [] =
      [Event.stdout (lit ("URL+QPs: https://www.pastery.net/api/paste/" ++
          "?api_key=key&duration=60&language=&max_views=0&title=\n")),
        Event.send (uploadRequest Flags.default (lit "key") (lit "hi")),
        Event.response,
        Event.stdout (lit "Error unmarshaling JSON: invalid character \x27o\x27 in literal null (expecting \x27u\x27)\n")] ∧
    openBodies (handleUpload (exampleWorld (lit "key") (lit "hi") (lit "not json")) Flags.default
      (lit "key") []) = 1 ∧
    openBodies (handleUpload
      (exampleWorld (lit "key") (lit "hi") (lit "\x7b\"url\":\"https://pastery.net/abc123\"\x7d"))
      Flags.default (lit "key") []) = 0 := by
  decide

theorem targetURL_injective (fl : Flags) (k1 k2 : Bytes)
    (h : targetURL fl k1 = targetURL fl k2) : k1 = k2 := by
  have hq : queryString k1 fl.title fl.lang fl.duration fl.maxViews =
      queryString k2 fl.title fl.lang fl.duration fl.maxViews := by
    simp only [targetURL] at h
    exact List.append_cancel_left h
  have h1 := decodeQuery_queryString k1 fl.title fl.lang fl.duration fl.maxViews
  have h2 := decodeQuery_queryString k2 fl.title fl.lang fl.duration fl.maxViews
  rw [hq, h2] at h1
  simp only [Option.some.injEq, List.cons.injEq, Prod.mk.injEq, true_and, and_true] at h1
  exact h1.symm

set_option maxRecDepth 100000 in
/-- C4, the claim as stated fails: two runs that differ only in the
`api_key` of the configuration file print different text, because the
`URL+QPs:` line carries the key. -/
theorem output_depends_on_api_key :
    stdoutText (Execute
      (exampleWorld (lit "key1") (lit "hi") (lit "\x7b\"url\":\"https://pastery.net/abc123\"\x7d"))
      (CommandLine.run Flags.default [])) ≠
    stdoutText (Execute
      (exampleWorld (lit "key2") (lit "hi") (lit "\x7b\"url\":\"https://pastery.net/abc123\"\x7d"))
      (CommandLine.run Flags.default [])) ∧
    stdoutLines (Execute
      (exampleWorld (lit "key1") (lit "hi") (lit "\x7b\"url\":\"https://pastery.net/abc123\"\x7d"))
      (CommandLine.run Flags.default [])) =
      [lit "Found api_key in /home/u/.config/bakeit.cfg\n",
        lit ("URL+QPs: https://www.pastery.net/api/paste/" ++
          "?api_key=key1&duration=60&language=&max_views=0&title=\n"),
        lit "Paste URL: https://pastery.net/abc123\n"] := by
  decide

theorem println_two (a b : Bytes) : Println [a, b] = a ++ 32 :: (b ++ [10]) := rfl

/-- C4, as amended: the API key is printed to standard output in the line
`URL+QPs:` of `handleUpload`, query-escaped and readable back from it, and
once more when the transport fails, in the line `Error sending request:`,
because the error of `client.Do` quotes the URL of the request. Nothing
else that is printed depends on the key: for the key `k1` of the
configuration file and any other key `k2`, with the same outcome of the
transport, the two runs of `handleUpload` are the same but for the URL in
those two lines and in the request, and the line of the `Run` handler names
the path of the configuration file, not the key. -/
theorem only_the_url_lines_show_the_key (w : World) (fl : Flags) (args : List Bytes)
    (content cfgPath k1 k2 : Bytes)
    (hpath : apiKeyPath w = (cfgPath, none))
    (hkey : readApiKey w cfgPath = (k1, none))
    (hread : contentRead w args = Except.ok content)
    (hsame : w.roundTrip (uploadRequest fl k1 content) = w.roundTrip (uploadRequest fl k2 content)) :
    handleUpload w fl k1 args =
      Event.stdout (lit "URL+QPs: " ++ targetURL fl k1 ++ [10]) ::
        Event.send (uploadRequest fl k1 content) ::
          (match w.roundTrip (uploadRequest fl k1 content) with
          | Except.error cause =>
            [Event.stdout (lit "Error sending request: Post \"" ++ targetURL fl k1 ++
              lit "\": " ++ cause ++ [10])]
          | Except.ok resp => Event.response :: handleResponse w resp) ∧
    handleUpload w fl k2 args =
      Event.stdout (lit "URL+QPs: " ++ targetURL fl k2 ++ [10]) ::
        Event.send (uploadRequest fl k2 content) ::
          (match w.roundTrip (uploadRequest fl k1 content) with
          | Except.error cause =>
            [Event.stdout (lit "Error sending request: Post \"" ++ targetURL fl k2 ++
              lit "\": " ++ cause ++ [10])]
          | Except.ok resp => Event.response :: handleResponse w resp) ∧
    targetURL fl k1 =
      lit "https://www.pastery.net/api/paste/?" ++
        queryString k1 fl.title fl.lang fl.duration fl.maxViews ∧
    (decodeQuery (queryString k1 fl.title fl.lang fl.duration fl.maxViews)).map
      (fun pairs => pairs.head?) = some (some (lit "api_key", k1)) ∧
    (targetURL fl k1 = targetURL fl k2 ↔ k1 = k2) ∧
    Run w fl args =
      Event.stdout (lit "Found api_key in " ++ cfgPath ++ [10]) :: handleUpload w fl k1 args := by
  have e1 : lit "URL+QPs: " = lit "URL+QPs:" ++ [32] := by decide
  have e2 : lit "Error sending request: Post \"" = lit "Error sending request:" ++ 32 :: lit "Post \"" := by
    decide
  have e3 : lit "Found api_key in " = lit "Found api_key in" ++ [32] := by decide
  have shape : ∀ k : Bytes, handleUpload w fl k args =
      Event.stdout (lit "URL+QPs: " ++ targetURL fl k ++ [10]) ::
        Event.send (uploadRequest fl k content) ::
          (match w.roundTrip (uploadRequest fl k content) with
          | Except.error cause =>
            [Event.stdout (lit "Error sending request: Post \"" ++ targetURL fl k ++
              lit "\": " ++ cause ++ [10])]
          | Except.ok resp => Event.response :: handleResponse w resp) := by
    intro k
    rw [handleUpload_of_content w fl k args content hread, uploadContent_eq, println_two, e1, e2]
    cases w.roundTrip (uploadRequest fl k content) with
    | error cause => simp [println_two]
    | ok resp => simp
  refine ⟨shape k1, ?_, ?_, ?_, ⟨targetURL_injective fl k1 k2, fun h => by rw [h]⟩, ?_⟩
  · rw [hsame]
    exact shape k2
  · have e4 : lit "https://www.pastery.net/api/paste/?" = endpoint ++ lit "?" := by decide
    rw [e4]
    rfl
  · rw [decodeQuery_queryString k1 fl.title fl.lang fl.duration fl.maxViews]
    rfl
  · simp only [Run, hpath, hkey, println_two, e3]
    simp

set_option maxRecDepth 100000 in
/-- C4 as amended, at a concrete run with the network down: the key
`key1` is in both lines that `handleUpload` prints. -/
theorem only_the_url_lines_show_the_key_witness :
    apiKeyPath (offlineWorld (lit "key1") (lit "hi")) = (lit "/home/u/.config/bakeit.cfg", none) ∧
    readApiKey (offlineWorld (lit "key1") (lit "hi")) (lit "/home/u/.config/bakeit.cfg") =
      (lit "key1", none) ∧
    contentRead (offlineWorld (lit "key1") (lit "hi")) [] = Except.ok (lit "hi") ∧
    (offlineWorld (lit "key1") (lit "hi")).roundTrip
        (uploadRequest Flags.default (lit "key1") (lit "hi")) =
      (offlineWorld (lit "key1") (lit "hi")).roundTrip
        (uploadRequest Flags.default (lit "key2") (lit "hi")) ∧
    handleUpload (offlineWorld (lit "key1") (lit "hi")) Flags.default (lit "key1") [] =
      Event.stdout (lit "URL+QPs: " ++ targetURL Flags.default (lit "key1") ++ [10]) ::
        Event.send (uploadRequest Flags.default (lit "key1") (lit "hi")) ::
          (match (offlineWorld (lit "key1") (lit "hi")).roundTrip
              (uploadRequest Flags.default (lit "key1") (lit "hi")) with
          | Except.error cause =>
            [Event.stdout (lit "Error sending request: Post \"" ++
              targetURL Flags.default (lit "key1") ++ lit "\": " ++ cause ++ [10])]
          | Except.ok resp =>
            Event.response :: handleResponse (offlineWorld (lit "key1") (lit "hi")) resp) ∧
    stdoutLines (handleUpload (offlineWorld (lit "key1") (lit "hi")) Flags.default (lit "key1") []) =
      [lit ("URL+QPs: https://www.pastery.net/api/paste/" ++
          "?api_key=key1&duration=60&language=&max_views=0&title=\n"),
        lit ("Error sending request: Post \"https://www.pastery.net/api/paste/" ++
          "?api_key=key1&duration=60&language=&max_views=0&title=\": " ++
          "dial tcp: lookup www.pastery.net: no such host\n")] :=
  ⟨by decide, by decide, rfl, rfl,
    (only_the_url_lines_show_the_key (offlineWorld (lit "key1") (lit "hi"))
      Flags.default [] (lit "hi") (lit "/home/u/.config/bakeit.cfg") (lit "key1") (lit "key2")
      (by decide) (by decide) rfl rfl).1,
    by decide⟩

/-- C1: when the content is read, the transport succeeds and the response
body is the JSON object with the single member `url` whose value is the
string `cs` (in any of its JSON spellings, with any white space),
`json.Unmarshal` returns the URL `cs` and `handleUpload` takes the path
without any error report: it prints the `URL+QPs:` line, sends the
request, prints the line `Paste URL: ` followed by exactly the bytes of
`cs` and a newline, and closes the body. The content and the API key need
not be non-empty, and the flag `--open-browser` changes nothing. -/
theorem upload_reports_the_url (w : World) (fl : Flags) (apiKey : Bytes) (args : List Bytes)
    (content : Bytes) (resp : Response) (body : Bytes) (cs : List Char)
    (hread : contentRead w args = Except.ok content)
    (hsend : w.roundTrip (uploadRequest fl apiKey content) = Except.ok resp)
    (hbody : resp.body = Except.ok body)
    (hjson : UrlObject cs body) :
    Unmarshal body { URL := [] } = Except.ok { URL := utf8 cs } ∧
    handleUpload w fl apiKey args =
      [Event.stdout (lit "URL+QPs: https://www.pastery.net/api/paste/?" ++
          queryString apiKey fl.title fl.lang fl.duration fl.maxViews ++ [10]),
        Event.send (uploadRequest fl apiKey content),
        Event.response,
        Event.stdout (lit "Paste URL: " ++ utf8 cs ++ [10]),
        Event.close] ∧
    reportsError (handleUpload w fl apiKey args) = false ∧
    (∀ b : Bool,
      handleUpload w { fl with openBrowser := b } apiKey args = handleUpload w fl apiKey args) := by
  have hu := Unmarshal_urlObject cs body hjson { URL := [] }
  have e1 : lit "URL+QPs: https://www.pastery.net/api/paste/?" =
      lit "URL+QPs:" ++ 32 :: (endpoint ++ lit "?") := by decide
  have e2 : lit "Paste URL: " = lit "Paste URL:" ++ [32] := by decide
  have hev : handleUpload w fl apiKey args =
      [Event.stdout (lit "URL+QPs: https://www.pastery.net/api/paste/?" ++
          queryString apiKey fl.title fl.lang fl.duration fl.maxViews ++ [10]),
        Event.send (uploadRequest fl apiKey content),
        Event.response,
        Event.stdout (lit "Paste URL: " ++ utf8 cs ++ [10]),
        Event.close] := by
    rw [handleUpload_of_content w fl apiKey args content hread, uploadContent_eq, hsend]
    simp only [handleResponse, hbody, hu, println_two, e1, e2, targetURL]
    simp
  refine ⟨hu, hev, ?_, ?_⟩
  · rw [hev]
    rfl
  · intro b
    have t1 : targetURL { fl with openBrowser := b } apiKey = targetURL fl apiKey := rfl
    have t2 : uploadRequest { fl with openBrowser := b } apiKey content =
        uploadRequest fl apiKey content := rfl
    rw [handleUpload_of_content w _ apiKey args content hread,
      handleUpload_of_content w fl apiKey args content hread, uploadContent_eq, uploadContent_eq,
      t1, t2]

set_option maxRecDepth 100000 in
/-- C1 at a concrete run: the service answers
`{"url": "https://pastery.net/abc123"}`. -/
theorem upload_reports_the_url_witness :
    contentRead
        (exampleWorld (lit "key") (lit "print(1)") (lit "\x7b\"url\": \"https://pastery.net/abc123\"\x7d"))
        [] = Except.ok (lit "print(1)") ∧
    UrlObject "https://pastery.net/abc123".toList
      (lit "\x7b\"url\": \"https://pastery.net/abc123\"\x7d") ∧
    handleUpload
        (exampleWorld (lit "key") (lit "print(1)") (lit "\x7b\"url\": \"https://pastery.net/abc123\"\x7d"))
        Flags.default (lit "key") [] =
      [Event.stdout (lit "URL+QPs: https://www.pastery.net/api/paste/?" ++
          queryString (lit "key") [] [] 60 0 ++ [10]),
        Event.send (uploadRequest Flags.default (lit "key") (lit "print(1)")),
        Event.response,
        Event.stdout (lit "Paste URL: " ++ utf8 "https://pastery.net/abc123".toList ++ [10]),
        Event.close] ∧
    stdoutLines (handleUpload
        (exampleWorld (lit "key") (lit "print(1)") (lit "\x7b\"url\": \"https://pastery.net/abc123\"\x7d"))
        Flags.default (lit "key") []) =
      [lit ("URL+QPs: https://www.pastery.net/api/paste/" ++
          "?api_key=key&duration=60&language=&max_views=0&title=\n"),
        lit "Paste URL: https://pastery.net/abc123\n"] :=
  ⟨rfl,
    UrlObject.mk [] [] [] [32] [] [] (utf8 "https://pastery.net/abc123".toList)
      rfl rfl rfl rfl rfl rfl (jsonChars_plain _ (by decide)),
    (upload_reports_the_url
      (exampleWorld (lit "key") (lit "print(1)") (lit "\x7b\"url\": \"https://pastery.net/abc123\"\x7d"))
      Flags.default (lit "key") [] (lit "print(1)")
      { body := Except.ok (lit "\x7b\"url\": \"https://pastery.net/abc123\"\x7d") }
      (lit "\x7b\"url\": \"https://pastery.net/abc123\"\x7d")
      "https://pastery.net/abc123".toList rfl rfl rfl
      (UrlObject.mk [] [] [] [32] [] [] (utf8 "https://pastery.net/abc123".toList)
        rfl rfl rfl rfl rfl rfl (jsonChars_plain _ (by decide)))).2.1,
    by decide⟩

set_option maxRecDepth 100000 in
/-- C2, the claim as stated fails: the service answers `{}`, valid JSON
without the `url` field; `handleUpload` reports no error and prints an
empty paste URL, as on success. -/
theorem empty_object_is_taken_as_success :
    checkValid (lit "\x7b\x7d") = true ∧
    handleUpload (exampleWorld (lit "key") (lit "hi") (lit "\x7b\x7d")) Flags.default (lit "key") [] =
      [Event.stdout (lit ("URL+QPs: https://www.pastery.net/api/paste/" ++
          "?api_key=key&duration=60&language=&max_views=0&title=\n")),
        Event.send (uploadRequest Flags.default (lit "key") (lit "hi")),
        Event.response,
        Event.stdout (lit "Paste URL: \n"),
        Event.close] ∧
    reportsError (handleUpload (exampleWorld (lit "key") (lit "hi") (lit "\x7b\x7d")) Flags.default
      (lit "key") []) = false := by
  decide

theorem handleResponse_invalid (w : World) (body : Bytes) (h : checkValid body = false) :
    handleResponse w { body := Except.ok body } =
      [Event.stdout (lit "Error unmarshaling JSON: " ++
        w.errorText (GoError.json JsonError.malformed) ++ [10])] := by
  have e1 : lit "Error unmarshaling JSON: " = lit "Error unmarshaling JSON:" ++ [32] := by decide
  simp only [handleResponse, Unmarshal_invalid body h, println_two, e1]
  simp

theorem handleResponse_error (w : World) (body : Bytes) (e : JsonError)
    (h : Unmarshal body { URL := [] } = Except.error e) :
    handleResponse w { body := Except.ok body } =
      [Event.stdout (lit "Error unmarshaling JSON: " ++ w.errorText (GoError.json e) ++ [10])] := by
  have e1 : lit "Error unmarshaling JSON: " = lit "Error unmarshaling JSON:" ++ [32] := by decide
  simp only [handleResponse, h, println_two, e1]
  simp

theorem handleResponse_ok (w : World) (body : Bytes) (data : ResponseData)
    (h : Unmarshal body { URL := [] } = Except.ok data) :
    handleResponse w { body := Except.ok body } =
      [Event.stdout (lit "Paste URL: " ++ data.URL ++ [10]), Event.close] := by
  have e1 : lit "Paste URL: " = lit "Paste URL:" ++ [32] := by decide
  simp only [handleResponse, h, println_two, e1]
  simp

set_option maxRecDepth 100000 in
theorem checkValid_not_json : checkValid (lit "not json") = false := by decide

set_option maxRecDepth 100000 in
theorem Unmarshal_array :
    Unmarshal (lit "[]") { URL := [] } = Except.error (JsonError.unmarshalType "array") := by
  have hv : checkValid (lit "[]") = true := by decide
  have hd : decodeValue (lit "[]") { URL := [] } =
      some ({ URL := [] }, some (JsonError.unmarshalType "array")) := by decide
  simp [Unmarshal, hv, hd]

/-- C2, as amended: `handleUpload` prints the unmarshal error, and nothing
else, for every body the JSON scanner rejects: among them a body whose
first byte after the white space cannot begin a JSON value, a body of white
space only, an object followed by a further byte, and the body `not json`.
For a body that is valid JSON it prints the unmarshal error when
`json.Unmarshal` returns one, as for the array `[]`, and otherwise
`Paste URL: ` with the URL decoded, whatever that URL is. A valid body
without the `url` field is not an error: for the empty object, with any
white space, the line printed is `Paste URL: ` with nothing after it, and
the body is closed as on success. -/
theorem parse_error_is_reported_missing_url_is_not (w : World) (body ws rest empty : Bytes)
    (c : Byte) (hws : allSpace ws = true) (hc : isSpace c = false)
    (hstart : startsValue c = false) (hempty : EmptyObject empty) :
    ((checkValid body = false ∧
        handleResponse w { body := Except.ok body } =
          [Event.stdout (lit "Error unmarshaling JSON: " ++
            w.errorText (GoError.json JsonError.malformed) ++ [10])]) ∨
      (checkValid body = true ∧
        ((∃ e, Unmarshal body { URL := [] } = Except.error e ∧
            handleResponse w { body := Except.ok body } =
              [Event.stdout (lit "Error unmarshaling JSON: " ++
                w.errorText (GoError.json e) ++ [10])]) ∨
          (∃ data, Unmarshal body { URL := [] } = Except.ok data ∧
            handleResponse w { body := Except.ok body } =
              [Event.stdout (lit "Paste URL: " ++ data.URL ++ [10]), Event.close])))) ∧
    (checkValid (ws ++ c :: rest) = false ∧
      handleResponse w { body := Except.ok (ws ++ c :: rest) } =
        [Event.stdout (lit "Error unmarshaling JSON: " ++
          w.errorText (GoError.json JsonError.malformed) ++ [10])]) ∧
    (checkValid ws = false ∧
      handleResponse w { body := Except.ok ws } =
        [Event.stdout (lit "Error unmarshaling JSON: " ++
          w.errorText (GoError.json JsonError.malformed) ++ [10])]) ∧
    (checkValid (empty ++ c :: rest) = false ∧
      handleResponse w { body := Except.ok (empty ++ c :: rest) } =
        [Event.stdout (lit "Error unmarshaling JSON: " ++
          w.errorText (GoError.json JsonError.malformed) ++ [10])]) ∧
    (checkValid (lit "not json") = false ∧
      handleResponse w { body := Except.ok (lit "not json") } =
        [Event.stdout (lit "Error unmarshaling JSON: " ++
          w.errorText (GoError.json JsonError.malformed) ++ [10])]) ∧
    (checkValid (lit "[]") = true ∧
      handleResponse w { body := Except.ok (lit "[]") } =
        [Event.stdout (lit "Error unmarshaling JSON: " ++
          w.errorText (GoError.json (JsonError.unmarshalType "array")) ++ [10])]) ∧
    (checkValid empty = true ∧
      Unmarshal empty { URL := [] } = Except.ok { URL := [] } ∧
      handleResponse w { body := Except.ok empty } =
        [Event.stdout (lit "Paste URL: \n"), Event.close]) := by
  refine ⟨?_, ?_, ?_, ?_, ?_, ?_, ?_⟩
  · cases hv : checkValid body with
    | false => exact Or.inl ⟨rfl, handleResponse_invalid w body hv⟩
    | true =>
      right
      refine ⟨rfl, ?_⟩
      cases hu : Unmarshal body { URL := [] } with
      | error e => exact Or.inl ⟨e, rfl, handleResponse_error w body e hu⟩
      | ok data => exact Or.inr ⟨data, rfl, handleResponse_ok w body data hu⟩
  · have h := checkValid_bad_start ws c rest hws hc hstart
    exact ⟨h, handleResponse_invalid w _ h⟩
  · have h := checkValid_no_value ws hws
    exact ⟨h, handleResponse_invalid w _ h⟩
  · have h := checkValid_trailing empty c rest hempty hc
    exact ⟨h, handleResponse_invalid w _ h⟩
  · exact ⟨checkValid_not_json, handleResponse_invalid w _ checkValid_not_json⟩
  · exact ⟨by decide, handleResponse_error w _ _ Unmarshal_array⟩
  · have h := handleResponse_ok w empty _ (Unmarshal_emptyObject empty hempty { URL := [] })
    have e1 : lit "Paste URL: \n" = lit "Paste URL: " ++ ([] : Bytes) ++ [10] := by decide
    rw [e1]
    exact ⟨checkValid_emptyObject empty hempty, Unmarshal_emptyObject empty hempty _, h⟩

set_option maxRecDepth 100000 in
/-- C2 as amended, at concrete bodies: the body ` <html>` is reported as an
error, the body `{ }` is not. -/
theorem parse_error_is_reported_missing_url_is_not_witness :
    allSpace [32] = true ∧ isSpace 60 = false ∧ startsValue 60 = false ∧
    EmptyObject (lit "\x7b \x7d") ∧
    (checkValid (lit " <html>") = false ∧
      handleResponse htmlWorld { body := Except.ok (lit " <html>") } =
        [Event.stdout (lit "Error unmarshaling JSON: invalid character \x27<\x27 looking for beginning of value\n")]) ∧
    (checkValid (lit "\x7b \x7d") = true ∧
      Unmarshal (lit "\x7b \x7d") { URL := [] } = Except.ok { URL := [] } ∧
      handleResponse htmlWorld { body := Except.ok (lit "\x7b \x7d") } =
        [Event.stdout (lit "Paste URL: \n"), Event.close]) :=
  ⟨rfl, rfl, rfl, EmptyObject.mk [] [32] [] rfl rfl rfl,
    (parse_error_is_reported_missing_url_is_not htmlWorld (lit "not json") [32] (lit "html>")
      (lit "\x7b \x7d") 60 rfl rfl rfl (EmptyObject.mk [] [32] [] rfl rfl rfl)).2.1,
    (parse_error_is_reported_missing_url_is_not htmlWorld (lit "not json") [32] (lit "html>")
      (lit "\x7b \x7d") 60 rfl rfl rfl (EmptyObject.mk [] [32] [] rfl rfl rfl)).2.2.2.2.2.2⟩

end Bakeit
